import Mathlib

/-!
Shallow embedding of the CargoX stowage services
(`src/backend/services/placement.py`, `src/backend/services/rearrangement.py`,
data model from `src/backend/models.py`).

Conventions of the embedding:
* Python `float` values (dimensions, weights, scores) are modelled as exact
  rationals `ℚ`; decimal literals such as `0.1` denote the exact rational.
* Python `int` is `ℤ`; dates are modelled as integer day numbers.
* SQLAlchemy rows become Lean structures; nullable columns become `Option`.
* A database session is a `Store` (a list of containers and a list of items);
  `query(...).first()` is `List.find?`, `query(...).all()` is `List.filter`,
  and in-place row mutation is functional record update threaded through.
* Python's stable `list.sort` / `sorted` with a key is modelled by the stable
  insertion sort `sortOrd` below, parametrised by the strict comparison of the
  keys (equal keys keep their original relative order, as in CPython).
-/

namespace CargoX

attribute [local semireducible] Rat.add Rat.mul Rat.inv Rat.sub Rat.ofScientific

/-- Item row, mirroring the columns of `models.Item` that the services read
or write.  `last_retrieved` / `last_retrieved_by` are audit columns that no
claim observes and are omitted. -/
structure Item where
  id : String
  name : String
  width : ℚ
  height : ℚ
  depth : ℚ
  weight : ℚ
  priority : ℤ
  preferred_zone : Option String
  expiry_date : Option ℤ
  usage_limit : Option ℤ
  usage_count : ℤ
  is_waste : Bool
  is_placed : Bool
  container_id : Option String
  position_x : ℚ
  position_y : ℚ
  position_z : ℚ
  deriving Repr, DecidableEq

/-- Container row, mirroring `models.Container`. -/
structure Container where
  id : String
  width : ℚ
  height : ℚ
  depth : ℚ
  capacity : ℤ
  container_type : String
  zone : Option String
  deriving Repr, DecidableEq

/-- A database snapshot: all container rows and all item rows. -/
structure Store where
  containers : List Container
  items : List Item
  deriving Repr, DecidableEq

/-- Python `str.startswith`, over the character list (kernel-evaluable
counterpart of `String.startsWith`). -/
def str_startsWith (s p : String) : Bool := p.data.isPrefixOf s.data

/-- Python string falsiness test (empty string), over the character list. -/
def str_isEmpty (s : String) : Bool := s.data.isEmpty

/-! ### Stable sorting (model of CPython's stable `sort`) -/

/-- Insert `a` into `l`, keeping every element strictly smaller than `a`
(under `lt`) in front of it.  Elements of `l` stand for elements that came
later in the original list, so on equal keys `a` is put first. -/
def insertOrd (lt : α → α → Bool) (a : α) : List α → List α
  | [] => [a]
  | b :: rest => if lt b a then b :: insertOrd lt a rest else a :: b :: rest

/-- Stable sort by the strict comparison `lt`: the result of CPython's
`sorted` with a key whose strict order is `lt`. -/
def sortOrd (lt : α → α → Bool) : List α → List α
  | [] => []
  | a :: rest => insertOrd lt a (sortOrd lt rest)

/-! ### Geometry kernel (`PlacementService._check_collision`,
`PlacementService._items_overlap_xy`) -/

/-- `PlacementService._check_collision`: axis-aligned box overlap with the
open-interval rule (touching faces, `≤`, do not collide). -/
def check_collision (pos1 dim1 pos2 dim2 : ℚ × ℚ × ℚ) : Bool :=
  let (x1, y1, z1) := pos1
  let (width1, height1, depth1) := dim1
  let (x2, y2, z2) := pos2
  let (width2, height2, depth2) := dim2
  let no_collision_x := decide (x1 + width1 ≤ x2) || decide (x2 + width2 ≤ x1)
  let no_collision_y := decide (y1 + height1 ≤ y2) || decide (y2 + height2 ≤ y1)
  let no_collision_z := decide (z1 + depth1 ≤ z2) || decide (z2 + depth2 ≤ z1)
  !(no_collision_x || no_collision_y || no_collision_z)

/-- Open-interval overlap of the XY projections of two placed items, written
from the specification's wording of the obstruction rule ("the 2D projections
of `I` and `J` onto the `(x, y)` plane overlap, using the same open-interval
overlap rule"): it is the spec-side reference predicate for claim C1. -/
def xy_projections_overlap (a b : Item) : Prop :=
  ¬(a.position_x + a.width ≤ b.position_x ∨ b.position_x + b.width ≤ a.position_x) ∧
  ¬(a.position_y + a.height ≤ b.position_y ∨ b.position_y + b.height ≤ a.position_y)

instance (a b : Item) : Decidable (xy_projections_overlap a b) := by
  unfold xy_projections_overlap; infer_instance

/-! ### Retrieval solver (`PlacementService.get_retrieval_path`) -/

/-- The other placed items of the target's container
(`db.query(Item).filter(container_id == container.id, id != item_id,
is_placed == True)`). -/
def container_items (items : List Item) (cid : String) (item_id : String) : List Item :=
  items.filter (fun i => i.container_id == some cid && i.id != item_id && i.is_placed)

/-- The blocking test of `get_retrieval_path`: `other.position_z <
item.position_z` and `_check_collision` applied with the *target's* `z`
substituted for the other item's `z` (the source passes `item.position_z` as
the third argument's `z` component). -/
def blocks_retrieval (item other : Item) : Bool :=
  decide (other.position_z < item.position_z) &&
    check_collision
      (item.position_x, item.position_y, item.position_z)
      (item.width, item.height, item.depth)
      (other.position_x, other.position_y, item.position_z)
      (other.width, other.height, other.depth)

/-- The `disturbed_items` loop of `get_retrieval_path`, as the items kept. -/
def disturbed_of (item : Item) (citems : List Item) : List Item :=
  citems.filter (fun other => blocks_retrieval item other)

/-- The step list built by `get_retrieval_path` (string contents elided to the
literal prefixes of the source; counts and ids appended). -/
def retrieval_steps (cid : String) (item_id : String) (disturbed : List String) : List String :=
  let open_step := "Open container " ++ cid
  let removal_steps :=
    if disturbed.isEmpty then []
    else
      ("Remove " ++ toString disturbed.length ++ " items that block access") ::
        (disturbed.enum.map (fun p => "  " ++ toString (p.1 + 1) ++ ". Remove item " ++ p.2))
  let extract_step := "Extract item " ++ item_id
  let replace_steps := if disturbed.isEmpty then [] else ["Replace removed items"]
  let close_step := "Close container " ++ cid
  open_step :: removal_steps ++ [extract_step] ++ replace_steps ++ [close_step]

/-- Result payload of `get_retrieval_path` (fields the claims observe). -/
structure RetrievalResult where
  found : Bool
  item_id : String
  path : List String
  disturbed_items : List String
  deriving Repr, DecidableEq

/-- `PlacementService.get_retrieval_path` (the audit-column update of
`last_retrieved` is not modelled; it is invisible to the claims). -/
def get_retrieval_path (store : Store) (item_id : String) : RetrievalResult :=
  match store.items.find? (fun i => i.id == item_id) with
  | none => { found := false, item_id := item_id, path := [], disturbed_items := [] }
  | some item =>
    match item.container_id, item.is_placed with
    | some cid, true =>
      match store.containers.find? (fun c => c.id == cid) with
      | none =>
        { found := true, item_id := item_id, path := ["Error: Container not found"],
          disturbed_items := [] }
      | some container =>
        let citems := container_items store.items cid item_id
        let disturbed := (disturbed_of item citems).map (fun i => i.id)
        { found := true, item_id := item_id,
          path := retrieval_steps container.id item_id disturbed,
          disturbed_items := disturbed }
    | _, _ =>
      { found := true, item_id := item_id,
        path := ["Item is not placed in any container"], disturbed_items := [] }

/-! ### Waste classifier (`PlacementService.manage_waste`, marking stage) -/

/-- The `expired_items` query predicate of `manage_waste`:
`expiry_date != None ∧ expiry_date < today ∧ is_waste == False`. -/
def expired_query (today : ℤ) (i : Item) : Bool :=
  (match i.expiry_date with
   | some d => decide (d < today)
   | none => false) && !i.is_waste

/-- The `fully_used_items` query predicate of `manage_waste`:
`usage_limit != None ∧ usage_count ≥ usage_limit ∧ is_waste == False`. -/
def fully_used_query (i : Item) : Bool :=
  (match i.usage_limit with
   | some l => decide (l ≤ i.usage_count)
   | none => false) && !i.is_waste

/-- Row effect of the marking loop of `manage_waste`: items matched by either
query get `is_waste = True`; every other row is untouched. -/
def mark_waste (today : ℤ) (i : Item) : Item :=
  if expired_query today i || fully_used_query i then { i with is_waste := true } else i

/-- The database state after the marking stage of `manage_waste` (the
waste-movement planning of the same function is not the subject of any
claim and is not modelled). -/
def manage_waste_mark (today : ℤ) (store : Store) : Store :=
  { store with items := store.items.map (mark_waste today) }

/-! ### Time simulator (`PlacementService.simulate_time`, usage stage) -/

/-- Replace the first element satisfying `p` by `f` of it (the effect of
mutating the row returned by `query(...).first()`). -/
def updateFirst (p : α → Bool) (f : α → α) : List α → List α
  | [] => []
  | a :: rest => if p a then f a :: rest else a :: updateFirst p f rest

/-- One `usage_plan` entry of `simulate_time`: locate the item by id; when
found, add the increment to its `usage_count` (the source applies the
increment unconditionally — it checks neither `is_waste` nor `usage_limit`). -/
def apply_usage_entry (items : List Item) (entry : String × ℤ) : List Item :=
  match items.find? (fun i => i.id == entry.1) with
  | some _ =>
      updateFirst (fun i => i.id == entry.1)
        (fun i => { i with usage_count := i.usage_count + entry.2 }) items
  | none => items

/-- The `used_items` ids accumulated by the usage loop of `simulate_time`. -/
def apply_usage_used (items : List Item) (usage_plan : List (String × ℤ)) : List String :=
  (usage_plan.filter (fun e => (items.find? (fun i => i.id == e.1)).isSome)).map (fun e => e.1)

/-- The usage-application loop of `simulate_time` over the whole plan
(`usage_plan` entries in iteration order). -/
def apply_usage (items : List Item) (usage_plan : List (String × ℤ)) : List Item :=
  usage_plan.foldl apply_usage_entry items

/-! ### Undocking planner (`PlacementService.generate_undocking_plan`) -/

/-- Strict part of the `ORDER BY priority DESC, weight DESC` comparison. -/
def undocking_lt (a b : Item) : Bool :=
  decide (b.priority < a.priority) ||
    (decide (a.priority = b.priority) && decide (b.weight < a.weight))

/-- Containers of the waste zone (`Container.zone == 'Waste'`). -/
def waste_zone_containers (store : Store) : List Container :=
  store.containers.filter (fun c => c.zone == some "Waste")

/-- The `items_in_waste` query: placed items whose container is in the waste
zone, ordered by descending `(priority, weight)`. -/
def undocking_candidates (store : Store) : List Item :=
  let ids := (waste_zone_containers store).map (fun c => c.id)
  sortOrd undocking_lt
    (store.items.filter (fun i =>
      (match i.container_id with
       | some cid => ids.contains cid
       | none => false) && i.is_placed))

/-- The greedy selection loop: keep an item whenever adding its weight stays
within `max_weight`; otherwise skip it and keep scanning. -/
def undocking_select (max_weight : ℚ) : List Item → ℚ → List Item × ℚ
  | [], current_weight => ([], current_weight)
  | i :: rest, current_weight =>
    if current_weight + i.weight ≤ max_weight then
      let (sel, w) := undocking_select max_weight rest (current_weight + i.weight)
      (i :: sel, w)
    else
      undocking_select max_weight rest current_weight

/-- An entry of the returned `items_in_plan`. -/
structure UndockingEntry where
  item_id : String
  item_name : String
  weight : ℚ
  source_container_id : Option String
  deriving Repr, DecidableEq

/-- Result payload of `generate_undocking_plan`. -/
structure UndockingPlan where
  success : Bool
  items_in_plan : List UndockingEntry
  total_weight : ℚ
  deriving Repr, DecidableEq

/-- `PlacementService.generate_undocking_plan`. -/
def generate_undocking_plan (store : Store) (max_weight : ℚ) : UndockingPlan :=
  if (waste_zone_containers store).isEmpty then
    { success := true, items_in_plan := [], total_weight := 0 }
  else
    let items_in_waste := undocking_candidates store
    if items_in_waste.isEmpty then
      { success := true, items_in_plan := [], total_weight := 0 }
    else
      let (sel, current_weight) := undocking_select max_weight items_in_waste 0
      { success := true,
        items_in_plan := sel.map (fun i =>
          { item_id := i.id, item_name := i.name, weight := i.weight,
            source_container_id := i.container_id }),
        total_weight := current_weight }

/-! ### Position search (`PlacementService._find_position_with_rotation` and
helpers) -/

/-- `PlacementService._calculate_volume_efficiency`. -/
def volume_efficiency (i : Item) : ℚ :=
  let volume := i.width * i.height * i.depth
  let max_dim := max i.width (max i.height i.depth)
  let min_dim := min i.width (min i.height i.depth)
  let aspect := if 0 < min_dim then max_dim / min_dim else 100
  volume * (0.5 + aspect * 0.5)

/-- `PlacementService._get_item_rotations`: the six dimension permutations in
`itertools.permutations` order (duplicates kept when dimensions coincide). -/
def item_rotations (i : Item) : List (ℚ × ℚ × ℚ) :=
  let a := i.width
  let b := i.height
  let c := i.depth
  [(a, b, c), (a, c, b), (b, a, c), (b, c, a), (c, a, b), (c, b, a)]

/-- `PlacementService._calculate_orientation_score` (lower is better). -/
def orientation_score (o pos : ℚ × ℚ × ℚ)
    (container_width container_height container_depth : ℚ) : ℚ :=
  let (width, height, depth) := o
  let (x, y, z) := pos
  let t1 : ℚ := if x = 0 then height * depth else 0
  let t2 : ℚ := if y = 0 then width * depth else 0
  let t3 : ℚ := if z = 0 then width * height else 0
  let t4 : ℚ := if x + width = container_width then height * depth else 0
  let t5 : ℚ := if y + height = container_height then width * depth else 0
  let t6 : ℚ := if z + depth = container_depth then width * height else 0
  let touch_area := t1 + t2 + t3 + t4 + t5 + t6
  let z_score := (-z)
  (-touch_area) * 0.8 + z_score * 0.2

/-- `min(int(m / step) + 1, 20)` of the source (`m ≥ 0`, so `int` truncation
is the floor). -/
def axis_steps (m step : ℚ) : ℕ :=
  min ((m / step).floor.toNat + 1) 20

/-- The grid coordinate `(i / max(1, steps - 1)) * m` of the dense branch. -/
def grid_coord (i : ℕ) (steps : ℕ) (m : ℚ) : ℚ :=
  ((i : ℚ) / ((max 1 (steps - 1) : ℕ) : ℚ)) * m

/-- Collision of a candidate box against any already-placed item. -/
def collides_existing (existing : List Item) (pos dims : ℚ × ℚ × ℚ) : Bool :=
  existing.any (fun e =>
    check_collision pos dims (e.position_x, e.position_y, e.position_z)
      (e.width, e.height, e.depth))

/-- One axis of the sparse lattice: `[0, m/3, m*2/3, m] if m > 0 else [0]`. -/
def sparse_axis (m : ℚ) : List ℚ :=
  if 0 < m then [0, m / 3, m * 2 / 3, m] else [0]

/-- Candidate positions of one orientation.  In the dense branch the source's
collision check and `append` sit inside the `for z` body but after the inner
`y`/`x` loops have run to completion, so each `z` index contributes exactly
one checked candidate: the grid point at the final `x`/`y` indices with the
current `z` coordinate (the loop variables `x_pos`/`y_pos` retain their last
values).  The sparse branch collects the whole lattice, filtered through the
collision test, in `x`-major order. -/
def candidate_positions (existing : List Item)
    (cw ch cd container_avg_dim w h d : ℚ) : List (ℚ × ℚ × ℚ) :=
  let max_x := max 0 (cw - w)
  let max_y := max 0 (ch - h)
  let max_z := max 0 (cd - d)
  let step_size : ℚ := if 10 < container_avg_dim then 0.25 else 0.1
  let x_steps := axis_steps max_x step_size
  let y_steps := axis_steps max_y step_size
  let z_steps := axis_steps max_z step_size
  if x_steps ≤ 10 ∧ y_steps ≤ 10 ∧ z_steps ≤ 10 then
    (List.range z_steps).filterMap (fun z =>
      let pos := (grid_coord (x_steps - 1) x_steps max_x,
                  grid_coord (y_steps - 1) y_steps max_y,
                  grid_coord z z_steps max_z)
      if collides_existing existing pos (w, h, d) then none else some pos)
  else
    (sparse_axis max_x).flatMap (fun x =>
      (sparse_axis max_y).flatMap (fun y =>
        (sparse_axis max_z).filterMap (fun z =>
          if collides_existing existing (x, y, z) (w, h, d) then none
          else some (x, y, z))))

/-- Sort the surviving candidates (ascending `z` when access-prioritized,
descending `z` otherwise; both stable) and keep the head. -/
def best_position_for (positions : List (ℚ × ℚ × ℚ))
    (prioritize_access : Bool) : Option (ℚ × ℚ × ℚ) :=
  let sorted :=
    if prioritize_access then
      sortOrd (fun p q => decide (p.2.2 < q.2.2)) positions
    else
      sortOrd (fun p q => decide (q.2.2 < p.2.2)) positions
  sorted.head?

/-- Python's `min` with a key: the first element attaining the minimum. -/
def min_by_q (f : α → ℚ) : List α → Option α
  | [] => none
  | a :: rest => some (rest.foldl (fun best x => if f x < f best then x else best) a)

/-- `PlacementService._find_position_with_rotation`.  The per-orientation
dictionary is kept as an association list: duplicate orientation keys (equal
dimensions) recompute the identical position, so overwrite semantics and
first-entry semantics agree. -/
def find_position_with_rotation (container : Container) (item : Item)
    (existing : List Item) (prioritize_access : Bool) :
    Option (ℚ × ℚ × ℚ) × Option (ℚ × ℚ × ℚ) :=
  let item_avg_dim := (item.width + item.height + item.depth) / 3
  let container_avg_dim := (container.width + container.height + container.depth) / 3
  let conversion_needed := decide (item_avg_dim * 50 < container_avg_dim)
  let cw := if conversion_needed then container.width / 100 else container.width
  let ch := if conversion_needed then container.height / 100 else container.height
  let cd := if conversion_needed then container.depth / 100 else container.depth
  if decide (container.capacity ≤ (existing.length : ℤ)) then (none, none)
  else
    let entries := (item_rotations item).filterMap (fun o =>
      let (w, h, d) := o
      if decide (cw < w) || decide (ch < h) || decide (cd < d) then none
      else
        match best_position_for
            (candidate_positions existing cw ch cd container_avg_dim w h d)
            prioritize_access with
        | some p => some (o, p)
        | none => none)
    if entries.isEmpty then (none, none)
    else
      let best :=
        if prioritize_access then min_by_q (fun e => e.2.2.2) entries
        else min_by_q (fun e => orientation_score e.1 e.2 cw ch cd) entries
      match best with
      | some (o, p) => (some p, some o)
      | none => (none, none)

/-! ### Placement writer (`PlacementService._place_item`) -/

/-- `PlacementService._place_item`: re-checks capacity against the database,
then overwrites the item's stored dimensions with the chosen orientation
(when it differs) and writes the placement record.  Returns the updated item
record and the updated database rows, or `none` when the capacity re-check
fails (the source returns `False` and mutates nothing). -/
def place_item (store_items : List Item) (item : Item) (container : Container)
    (position : ℚ × ℚ × ℚ) (orientation : Option (ℚ × ℚ × ℚ)) :
    Option (Item × List Item) :=
  let container_items_count :=
    (store_items.filter (fun i => i.container_id == some container.id && i.is_placed)).length
  if decide (container.capacity ≤ (container_items_count : ℤ)) then none
  else
    let (x, y, z) := position
    let item1 :=
      match orientation with
      | some (w, h, d) =>
        if w ≠ item.width ∨ h ≠ item.height ∨ d ≠ item.depth then
          { item with width := w, height := h, depth := d }
        else item
      | none => item
    let item2 := { item1 with
      container_id := some container.id,
      position_x := x, position_y := y, position_z := z,
      is_placed := true }
    some (item2, updateFirst (fun i => i.id == item.id) (fun _ => item2) store_items)

/-! ### Placement planner (`PlacementService.place_items` and
`_try_place_in_containers`) -/

/-- Strict part of the container sort key
`(count / max(1, capacity), -(width * height * depth))`. -/
def fill_lt (counts : String → ℤ) (a b : Container) : Bool :=
  let fa := (counts a.id : ℚ) / ((max 1 a.capacity : ℤ) : ℚ)
  let fb := (counts b.id : ℚ) / ((max 1 b.capacity : ℤ) : ℚ)
  let va := a.width * a.height * a.depth
  let vb := b.width * b.height * b.depth
  decide (fa < fb) || (decide (fa = fb) && decide (vb < va))

/-- The access flag handed to the position search by
`_try_place_in_containers`: `prioritize_access=item.priority > 75`, for both
the preferred-zone pass and the fallback pass. -/
def place_access_flag (item : Item) : Bool :=
  decide (75 < item.priority)

/-- Result of one `_try_place_in_containers` call: the placed item record on
success, plus the (possibly corrected) running counters and database rows. -/
structure TryPlaceResult where
  placed_item : Option Item
  counts : String → ℤ
  store_items : List Item

/-- The container loop of `_try_place_in_containers`: skip waste-id
containers for non-waste items, enforce the running counter, re-check the
count from the items placed this run (correcting the counter on mismatch),
then search for a position and write the placement. -/
def try_place_core (item : Item) :
    List Container → (String → ℤ) → List Item → List Item → TryPlaceResult
  | [], counts, _, store_items =>
    { placed_item := none, counts := counts, store_items := store_items }
  | container :: rest, counts, placed_items, store_items =>
    if str_startsWith container.id "WST" && !item.is_waste then
      try_place_core item rest counts placed_items store_items
    else if decide (container.capacity ≤ counts container.id) then
      try_place_core item rest counts placed_items store_items
    else
      let existing := placed_items.filter (fun i => i.container_id == some container.id)
      if decide (container.capacity ≤ (existing.length : ℤ)) then
        try_place_core item rest
          (fun cid => if cid = container.id then (existing.length : ℤ) else counts cid)
          placed_items store_items
      else
        match find_position_with_rotation container item existing (place_access_flag item) with
        | (some position, orient) =>
          match place_item store_items item container position orient with
          | some (item2, store2) =>
            { placed_item := some item2,
              counts := fun cid =>
                if cid = container.id then counts container.id + 1 else counts cid,
              store_items := store2 }
          | none => try_place_core item rest counts placed_items store_items
        | (none, _) => try_place_core item rest counts placed_items store_items

/-- `PlacementService._try_place_in_containers`: sorts the given list in
place by `(fill, -volume)` and runs the container loop.  The sorted list is
returned because the source's in-place sort persists in the caller's
zone-grouped list.  The `prioritize_preferred` argument is accepted and never
read, exactly as in the source. -/
def try_place_in_containers (item : Item) (containers : List Container)
    (counts : String → ℤ) (placed_items : List Item) (store_items : List Item)
    (_prioritize_preferred : Bool) : List Container × TryPlaceResult :=
  let sorted := sortOrd (fill_lt counts) containers
  (sorted, try_place_core item sorted counts placed_items store_items)

/-- `containers_by_zone`: group containers by zone, zones in first-seen
order, containers in list order. -/
def group_by_zone (cs : List Container) : List (Option String × List Container) :=
  cs.foldl (fun m c =>
    match m.find? (fun e => e.1 == c.zone) with
    | some _ => m.map (fun e => if e.1 == c.zone then (e.1, e.2 ++ [c]) else e)
    | none => m ++ [(c.zone, [c])]) []

/-- Write back the in-place-sorted preferred list into the zone map. -/
def set_zone_list (m : List (Option String × List Container))
    (z : Option String) (l : List Container) : List (Option String × List Container) :=
  m.map (fun e => if e.1 == z then (e.1, l) else e)

/-- Strict part of the item sort key `(-priority, volume_efficiency)`. -/
def item_order_lt (a b : Item) : Bool :=
  decide (b.priority < a.priority) ||
    (decide (a.priority = b.priority) && decide (volume_efficiency a < volume_efficiency b))

/-- State threaded through the `place_items` main loop. -/
structure PlaceState where
  zone_map : List (Option String × List Container)
  counts : String → ℤ
  store_items : List Item
  placed_items : List Item
  unplaced_items : List Item

/-- One iteration of the `place_items` loop: the preferred-zone pass (when a
non-empty preferred zone has containers), then the fallback pass over all
containers.  Counter corrections made by a failed pass persist, as the
source's dictionary is shared. -/
def place_one (containers : List Container) (item : Item) (st : PlaceState) : PlaceState :=
  let prefkey : Option String :=
    match item.preferred_zone with
    | some z =>
      if str_isEmpty z then none
      else if (st.zone_map.find? (fun e => e.1 == some z)).isSome then some z else none
    | none => none
  match prefkey with
  | some z =>
    let zlist := ((st.zone_map.find? (fun e => e.1 == some z)).map (fun e => e.2)).getD []
    let tr := try_place_in_containers item zlist st.counts st.placed_items st.store_items true
    let r := tr.2
    let zm := set_zone_list st.zone_map (some z) tr.1
    match r.placed_item with
    | some item2 =>
      { zone_map := zm,
        counts := r.counts, store_items := r.store_items,
        placed_items := st.placed_items ++ [item2], unplaced_items := st.unplaced_items }
    | none =>
      let r2 := (try_place_in_containers item containers r.counts st.placed_items r.store_items false).2
      match r2.placed_item with
      | some item2 =>
        { zone_map := zm,
          counts := r2.counts, store_items := r2.store_items,
          placed_items := st.placed_items ++ [item2], unplaced_items := st.unplaced_items }
      | none =>
        { zone_map := zm,
          counts := r2.counts, store_items := r2.store_items,
          placed_items := st.placed_items, unplaced_items := st.unplaced_items ++ [item] }
  | none =>
    let r2 := (try_place_in_containers item containers st.counts st.placed_items st.store_items false).2
    match r2.placed_item with
    | some item2 =>
      { st with
        counts := r2.counts, store_items := r2.store_items,
        placed_items := st.placed_items ++ [item2] }
    | none =>
      { st with
        counts := r2.counts, store_items := r2.store_items,
        unplaced_items := st.unplaced_items ++ [item] }

/-- The `for item in sorted_items` loop. -/
def place_loop (containers : List Container) : List Item → PlaceState → PlaceState
  | [], st => st
  | item :: rest, st => place_loop containers rest (place_one containers item st)

/-- Clearing of a placement record (`place_items` reset branch; the source
nulls the position columns, modelled as zeroing since no claim reads the
position of an unplaced item). -/
def reset_placement (i : Item) : Item :=
  { i with
    is_placed := false, container_id := none,
    position_x := 0, position_y := 0, position_z := 0 }

/-- Result payload of `place_items` (the fields the claims observe). -/
structure PlacementOutcome where
  placed_count : ℕ
  unplaced_count : ℕ
  placed_items : List Item
  unplaced_items : List Item
  deriving Repr, DecidableEq

/-- `PlacementService.place_items`.  `items? = none` models the default
`items=None` call (place all unplaced items); an explicitly empty selection
triggers the source's reset-and-retry branch. -/
def place_items (store : Store) (items? : Option (List Item)) : PlacementOutcome :=
  let containers := store.containers
  if containers.isEmpty then
    { placed_count := 0,
      unplaced_count := (match items? with | some its => its.length | none => 0),
      placed_items := [], unplaced_items := [] }
  else
    let items0 :=
      match items? with
      | some its => its
      | none => store.items.filter (fun i => !i.is_placed)
    let reset := items0.isEmpty && !store.items.isEmpty
    let items1 := if items0.isEmpty then store.items.map reset_placement else items0
    let store_items1 := if reset then store.items.map reset_placement else store.items
    if items1.isEmpty then
      { placed_count := 0, unplaced_count := 0, placed_items := [], unplaced_items := [] }
    else
      let zone_map := group_by_zone containers
      let sorted_items := sortOrd item_order_lt items1
      let st := place_loop containers sorted_items
        { zone_map := zone_map, counts := fun _ => 0, store_items := store_items1,
          placed_items := [], unplaced_items := [] }
      { placed_count := st.placed_items.length, unplaced_count := st.unplaced_items.length,
        placed_items := st.placed_items, unplaced_items := st.unplaced_items }

/-! ### Rearrangement planner (`services/rearrangement.py`).
Python float divisions that would raise `ZeroDivisionError` (zero container
volume) are total in `ℚ` (`x / 0 = 0`); no claim exercises them. -/

/-- `RearrangementService.calculate_container_utilization`. -/
def calculate_container_utilization (store : Store) (container_id : String) : ℚ :=
  match store.containers.find? (fun c => c.id == container_id) with
  | none => 0
  | some container =>
    let items := store.items.filter (fun i => i.container_id == some container_id && i.is_placed)
    let container_volume := container.width * container.height * container.depth
    let used_volume := (items.map (fun i => i.width * i.height * i.depth)).sum
    if 0 < container_volume then (used_volume / container_volume) * 100 else 0

/-- `RearrangementService.get_container_efficiency_score`. -/
def container_efficiency_score (store : Store) (container : Container) : ℚ :=
  let utilization := calculate_container_utilization store container.id
  let distance_from_optimal := |75 - utilization|
  let score := 100 - distance_from_optimal
  if utilization < 20 then score * 0.7
  else if 90 < utilization then score * 0.8
  else score

/-- One record of `get_disorganized_containers` (the keys read downstream;
the zone/type/dimension echo fields are not observed by any claim). -/
structure DisorganizedEntry where
  id : String
  utilization : ℚ
  efficiency_score : ℚ
  total_items : ℕ
  low_priority_items : ℕ
  inefficiency_score : ℚ
  deriving Repr, DecidableEq

/-- `RearrangementService.get_disorganized_containers` with the default
`excluded_types=["waste"]`, sorted by descending inefficiency (stable). -/
def get_disorganized_containers (store : Store) : List DisorganizedEntry :=
  let containers := store.containers.filter (fun c => c.container_type.toLower != "waste")
  let container_data := containers.map (fun c =>
    let utilization := calculate_container_utilization store c.id
    let eff := container_efficiency_score store c
    let total := (store.items.filter (fun i => i.container_id == some c.id && i.is_placed)).length
    let lowp := (store.items.filter (fun i =>
      i.container_id == some c.id && i.is_placed && decide (i.priority ≤ 30))).length
    { id := c.id, utilization := utilization, efficiency_score := eff,
      total_items := total, low_priority_items := lowp,
      inefficiency_score := 100 - eff : DisorganizedEntry })
  sortOrd (fun a b => decide (b.inefficiency_score < a.inefficiency_score)) container_data

/-- `RearrangementService.estimate_movement_time` (both containers are always
given at the call sites modelled here). -/
def estimate_movement_time (item : Item) (from_container to_container : Container) : ℚ :=
  let base_time := item.weight * 0.5
  let distance_time : ℚ := if from_container.zone ≠ to_container.zone then 10 else 3
  let size_time := (item.width * item.height * item.depth) * 0.2
  let priority_time : ℚ := if 70 < item.priority then 5 else 0
  base_time + distance_time + size_time + priority_time

/-- The per-container `(score, container)` entry of
`RearrangementService.find_optimal_container` (`None` when the item does not
volumetrically fit). -/
def foc_score_entry (store : Store) (item : Item) (container : Container) :
    Option (ℚ × Container) :=
  let container_items := store.items.filter (fun i =>
    i.container_id == some container.id && i.is_placed)
  let used_volume := (container_items.map (fun i => i.width * i.height * i.depth)).sum
  let container_volume := container.width * container.height * container.depth
  let remaining_volume := container_volume - used_volume
  let item_volume := item.width * item.height * item.depth
  if decide (remaining_volume < item_volume) then none
  else
    let space_score := (remaining_volume - item_volume) / container_volume
    let zone_score : ℚ :=
      match item.preferred_zone with
      | some z => if !(str_isEmpty z) && container.zone == some z then 0.5 else 1
      | none => 1
    let utilization := if 0 < container_volume then used_volume / container_volume else 0
    let utilization_score := |0.75 - utilization|
    some (zone_score * 0.5 + space_score * 0.3 + utilization_score * 0.2, container)

/-- `RearrangementService.find_optimal_container`.  `heapq.heappop` of the
`(score, container)` tuples yields the minimal score; on an exact score tie
CPython would compare the container objects and raise (caught by the caller,
which then skips the item) — modelled as the first minimal entry, which no
claim distinguishes. -/
def find_optimal_container (store : Store) (item : Item) : Option (Container × ℚ) :=
  let container_scores := store.containers.filterMap (foc_score_entry store item)
  match min_by_q (fun e => e.1) container_scores with
  | none => none
  | some (_, best_container) =>
    let item_volume := item.width * item.height * item.depth
    let container_volume := best_container.width * best_container.height * best_container.depth
    let fit_score := 100 - ((container_volume - item_volume) / container_volume * 100)
    some (best_container, fit_score)

/-- Count of placed items recorded in a given container
(`items_count` of the capacity map and of `virtual_container_usage`). -/
def items_count_in (store : Store) (cid : String) : ℕ :=
  (store.items.filter (fun i => i.container_id == some cid && i.is_placed)).length

/-- The initial per-container item counts of the snapshot, as the
virtual-usage map is initialised. -/
def initial_counts (store : Store) : String → ℤ :=
  fun cid => (items_count_in store cid : ℤ)

/-- The source-container selection of `generate_rearrangement_plan`. -/
def source_containers_of (store : Store) (util : String → ℚ)
    (disorganized : List DisorganizedEntry) : List Container :=
  let overutilized := store.containers.filter (fun c => decide (85 < util c.id))
  let disorganized_ids :=
    (disorganized.filter (fun d => decide (30 < d.inefficiency_score))).map (fun d => d.id)
  let with_disorg := store.containers.foldl (fun acc c =>
    if disorganized_ids.contains c.id && !(decide (c ∈ acc)) then acc ++ [c] else acc)
    overutilized
  if with_disorg.isEmpty then store.containers.filter (fun c => decide (60 < util c.id))
  else with_disorg

/-- The target-container selection of `generate_rearrangement_plan`
(containers below capacity, preferring under-utilized ones). -/
def potential_targets_of (store : Store) (util : String → ℚ)
    (sources : List Container) : List Container :=
  let available := store.containers.filter (fun c =>
    !(decide (c.capacity ≤ (items_count_in store c.id : ℤ))))
  let underutilized := available.filter (fun c => decide (util c.id < 50))
  if !underutilized.isEmpty then underutilized
  else
    let moderate := available.filter (fun c => decide (util c.id < 70))
    if !moderate.isEmpty then moderate
    else available.filter (fun c => !(decide (c ∈ sources)))

/-- One pass of the movable-item collection: items of the source containers
at or below the priority threshold, deduplicated by item id. -/
def collect_movable (store : Store) (sources : List Container) (threshold : ℤ)
    (acc : List (Item × Container)) : List (Item × Container) :=
  sources.foldl (fun acc c =>
    let items := store.items.filter (fun i =>
      i.container_id == some c.id && i.is_placed && decide (i.priority ≤ threshold))
    items.foldl (fun acc i =>
      if acc.any (fun p => p.1.id == i.id) then acc else acc ++ [(i, c)]) acc) acc

/-- The up-to-three collection attempts with the threshold raised by 20 after
each unsatisfied pass, stopping beyond 80; returns the collected pairs and
the final value of `current_priority_threshold`. -/
def movable_attempts (store : Store) (sources : List Container) (max_movements : ℕ) :
    ℕ → ℤ → List (Item × Container) → List (Item × Container) × ℤ
  | 0, th, acc => (acc, th)
  | n + 1, th, acc =>
    let acc2 := collect_movable store sources th acc
    if max_movements ≤ acc2.length then (acc2, th)
    else
      let th2 := th + 20
      if 80 < th2 then (acc2, th2)
      else movable_attempts store sources max_movements n th2 acc2

/-- One movement of the plan (the free-text `description` field is not
modelled; no claim reads it). -/
structure RearrangementMovement where
  step : ℕ
  item_id : String
  item_name : String
  from_container_id : String
  to_container_id : String
  from_zone : Option String
  to_zone : Option String
  estimated_time : ℚ
  priority : ℤ
  deriving Repr, DecidableEq

/-- Apply one movement to a per-container item-count map: decrement the
source, then increment the destination — exactly the two
`virtual_container_usage` updates of the loop. -/
def apply_movement (usage : String → ℤ) (m : RearrangementMovement) : String → ℤ :=
  let u1 := fun cid => if cid = m.from_container_id then usage cid - 1 else usage cid
  fun cid => if cid = m.to_container_id then u1 cid + 1 else u1 cid

/-- Apply a movement sequence in order to a per-container count map. -/
def apply_movements (usage : String → ℤ) (ms : List RearrangementMovement) : String → ℤ :=
  ms.foldl apply_movement usage

/-- One step of the inner scan over `potential_targets`: skip the source
container and full-by-virtual-usage containers, keep the volumetrically
fitting container with the highest fit score (first wins ties). -/
def pick_step (store : Store) (usage : String → ℤ) (from_container : Container)
    (item : Item) (best : Option (Container × ℚ)) (target : Container) :
    Option (Container × ℚ) :=
  if target.id == from_container.id then best
  else if decide (target.capacity ≤ usage target.id) then best
  else
    let container_items := store.items.filter (fun i =>
      i.container_id == some target.id && i.is_placed)
    let used_volume := (container_items.map (fun i => i.width * i.height * i.depth)).sum
    let container_volume := target.width * target.height * target.depth
    let remaining_volume := container_volume - used_volume
    let item_volume := item.width * item.height * item.depth
    if decide (item_volume ≤ remaining_volume) then
      let fit_score := 100 - ((container_volume - item_volume) / container_volume * 100)
      match best with
      | none => some (target, fit_score)
      | some (_, bs) => if decide (bs < fit_score) then some (target, fit_score) else best
    else best

/-- The inner scan over `potential_targets` of the movement loop. -/
def pick_from_targets (store : Store) (targets : List Container) (usage : String → ℤ)
    (from_container : Container) (item : Item) : Option (Container × ℚ) :=
  targets.foldl (pick_step store usage from_container item) none

/-- Destination choice for one movable item: the best potential target, else
the `find_optimal_container` fallback guarded by identity and virtual
capacity; a final guard skips a destination equal to the source. -/
def pick_target (store : Store) (targets : List Container) (usage : String → ℤ)
    (from_container : Container) (item : Item) : Option Container :=
  let best2 : Option Container :=
    match pick_from_targets store targets usage from_container item with
    | some (c, _) => some c
    | none =>
      match find_optimal_container store item with
      | some (candidate, _) =>
        if candidate.id != from_container.id &&
            decide (usage candidate.id < candidate.capacity) then
          some candidate
        else none
      | none => none
  match best2 with
  | none => none
  | some c => if c.id == from_container.id then none else some c

/-- Lookup in the utilization association map (`container_utilization`). -/
def assoc_get (m : List (String × ℚ)) (k : String) : ℚ :=
  ((m.find? (fun e => e.1 == k)).map (fun e => e.2)).getD 0

/-- Upsert in the utilization association map. -/
def assoc_set (m : List (String × ℚ)) (k : String) (v : ℚ) : List (String × ℚ) :=
  if (m.find? (fun e => e.1 == k)).isSome then
    m.map (fun e => if e.1 == k then (k, v) else e)
  else m ++ [(k, v)]

/-- `container_utilization = {c.id: calculate_container_utilization(c.id)}`. -/
def init_util_map (store : Store) : List (String × ℚ) :=
  store.containers.foldl
    (fun m c => assoc_set m c.id (calculate_container_utilization store c.id)) []

/-- The movement-generation loop of `generate_rearrangement_plan`: enumerate
the movable items, stop at `max_movements`, pick a destination per item,
update the virtual usage and the utilization map, and emit the movement. -/
def movement_loop (store : Store) (targets : List Container) (max_movements : ℕ) :
    List (Item × Container) → ℕ → (String → ℤ) → List (String × ℚ) →
    List RearrangementMovement × List (String × ℚ)
  | [], _, _, um => ([], um)
  | (item, from_container) :: rest, i, usage, um =>
    if max_movements ≤ i then ([], um)
    else
      match pick_target store targets usage from_container item with
      | none => movement_loop store targets max_movements rest (i + 1) usage um
      | some best_container =>
        let movement_time := estimate_movement_time item from_container best_container
        let m : RearrangementMovement :=
          { step := i + 1, item_id := item.id, item_name := item.name,
            from_container_id := from_container.id, to_container_id := best_container.id,
            from_zone := from_container.zone, to_zone := best_container.zone,
            estimated_time := movement_time, priority := item.priority }
        let usage2 := apply_movement usage m
        let item_volume := item.width * item.height * item.depth
        let from_volume := from_container.width * from_container.height * from_container.depth
        let to_volume := best_container.width * best_container.height * best_container.depth
        let adjusted_from := assoc_get um from_container.id - ((item_volume / from_volume) * 100)
        let adjusted_to := assoc_get um best_container.id + ((item_volume / to_volume) * 100)
        let um2 := assoc_set (assoc_set um from_container.id (max 0 adjusted_from))
          best_container.id (min 100 adjusted_to)
        let r := movement_loop store targets max_movements rest (i + 1) usage2 um2
        (m :: r.1, r.2)

/-- Result payload of `generate_rearrangement_plan`. -/
structure RearrangementPlan where
  success : Bool
  total_steps : ℕ
  total_estimated_time : ℚ
  space_optimization : ℚ
  movements : List RearrangementMovement
  low_priority_items_moved : List String
  high_priority_items_untouched : List String
  disorganized_containers : List DisorganizedEntry
  deriving Repr, DecidableEq

/-- An early-return plan with no movements. -/
def empty_plan (disorganized : List DisorganizedEntry) : RearrangementPlan :=
  { success := true, total_steps := 0, total_estimated_time := 0,
    space_optimization := 0, movements := [], low_priority_items_moved := [],
    high_priority_items_untouched := [], disorganized_containers := disorganized.take 10 }

/-- `RearrangementService.generate_rearrangement_plan`.  The `space_target`
argument is accepted and never read, exactly as in the source. -/
def generate_rearrangement_plan (store : Store) (_space_target : ℚ)
    (priority_threshold : ℤ) (max_movements : ℕ) : RearrangementPlan :=
  let util : String → ℚ := fun cid => calculate_container_utilization store cid
  let disorganized := get_disorganized_containers store
  if store.containers.length < 2 then empty_plan disorganized
  else
    let sources := source_containers_of store util disorganized
    let targets := potential_targets_of store util sources
    if sources.isEmpty || targets.isEmpty then empty_plan disorganized
    else
      let ma := movable_attempts store sources max_movements 3 priority_threshold []
      let movable := ma.1
      let final_threshold := ma.2
      if movable.isEmpty then empty_plan disorganized
      else
        let movable_sorted := sortOrd (fun a b => decide (a.1.priority < b.1.priority)) movable
        let util_map := init_util_map store
        let initial_utilization := ((util_map.map (fun e => e.2)).sum) / (util_map.length : ℚ)
        let untouched := (store.items.filter (fun i =>
          decide (final_threshold < i.priority))).map (fun i => i.id)
        let ml :=
          movement_loop store targets max_movements movable_sorted 0 (initial_counts store) util_map
        let movements := ml.1
        let um_final := ml.2
        let final_utilization :=
          if um_final.isEmpty then 0
          else ((um_final.map (fun e => e.2)).sum) / (um_final.length : ℚ)
        { success := true, total_steps := movements.length,
          total_estimated_time := (movements.map (fun m => m.estimated_time)).sum,
          space_optimization := final_utilization - initial_utilization,
          movements := movements,
          low_priority_items_moved := movements.map (fun m => m.item_id),
          high_priority_items_untouched := untouched,
          disorganized_containers := disorganized.take 10 }

/-! ### Spec-side reference definitions -/

/-- Modelled from the spec's wording only — **no counterpart exists in the
source**: the claimed capacity-governor fraction `f` selected from the
item-count regime (≤20 → 0.3; 21–100 → 0.6; >100 → `max(0.65, 0.85 −
item_count/10000)`). -/
def spec_governor_fraction (item_count : ℕ) : ℚ :=
  if item_count ≤ 20 then 0.3
  else if item_count ≤ 100 then 0.6
  else max 0.65 (0.85 - (item_count : ℚ) / 10000)

/-- Modelled from the spec's wording only — **no counterpart exists in the
source**: the claimed global cap `⌊total_capacity · f⌋`, with the 21–100
regime additionally floored so that at least 15 items stay unplaced. -/
def spec_governor_cap (total_capacity : ℤ) (item_count : ℕ) : ℤ :=
  let base := ((total_capacity : ℚ) * spec_governor_fraction item_count).floor
  if 21 ≤ item_count ∧ item_count ≤ 100 then min base ((item_count : ℤ) - 15) else base

/-! ### Concrete fixtures used by counterexamples and witnesses -/

/-- A default-shaped item record; fixtures override the relevant fields. -/
def base_item : Item :=
  { id := "X", name := "item", width := 1, height := 1, depth := 1, weight := 1,
    priority := 50, preferred_zone := none, expiry_date := none, usage_limit := none,
    usage_count := 0, is_waste := false, is_placed := false, container_id := none,
    position_x := 0, position_y := 0, position_z := 0 }

/-- A storage-kind container, id not starting with `WST`. -/
def cx_storage_container : Container :=
  { id := "CONT1", width := 1, height := 1, depth := 1, capacity := 1,
    container_type := "storage", zone := some "A" }

/-- A waste item that fits `cx_storage_container` exactly. -/
def cx_waste_item : Item := { base_item with id := "W1", is_waste := true }

/-- Snapshot for the C4 counterexample: one storage container, one waste item. -/
def cx_store_c4 : Store := { containers := [cx_storage_container], items := [cx_waste_item] }

/-- A non-waste unit item. -/
def cx_plain_item : Item := { base_item with id := "P1" }

/-- Snapshot for the C5 counterexample: one capacity-1 container, one item. -/
def cx_store_c5 : Store := { containers := [cx_storage_container], items := [cx_plain_item] }

/-- A deep container allowing several distinct `z` candidates (sparse grid). -/
def cx_deep_container : Container :=
  { id := "CONT2", width := 1, height := 1, depth := 3, capacity := 2,
    container_type := "storage", zone := some "A" }

/-- A priority-72 item with no preferred zone. -/
def cx_item72 : Item := { base_item with id := "I72", priority := 72 }

/-- Snapshot for the C8 counterexample. -/
def cx_store_c8 : Store := { containers := [cx_deep_container], items := [cx_item72] }

/-- Scenario-3 container of the spec: `(2,2,2)`, capacity 2. -/
def cx_container_a : Container :=
  { id := "CONTA", width := 2, height := 2, depth := 2, capacity := 2,
    container_type := "storage", zone := some "A" }

/-- Scenario-3 target item `A`, placed at `(0,0,1)`. -/
def cx_item_A : Item :=
  { base_item with
    id := "A", is_placed := true, container_id := some "CONTA",
    position_x := 0, position_y := 0, position_z := 1 }

/-- Scenario-3 obstructing item `B`, placed at `(0,0,0)`. -/
def cx_item_B : Item :=
  { base_item with
    id := "B", is_placed := true, container_id := some "CONTA",
    position_x := 0, position_y := 0, position_z := 0 }

/-- Snapshot for the C9 counterexample and the C1 witness. -/
def cx_store_c9 : Store := { containers := [cx_container_a], items := [cx_item_A, cx_item_B] }

/-- A container in the waste zone. -/
def cx_waste_zone_container : Container :=
  { id := "WZ1", width := 2, height := 2, depth := 2, capacity := 10,
    container_type := "waste", zone := some "Waste" }

/-- A 5 kg item placed in the waste-zone container. -/
def cx_heavy_item : Item :=
  { base_item with
    id := "H5", weight := 5, is_waste := true, is_placed := true,
    container_id := some "WZ1" }

/-- A 3 kg item placed in the waste-zone container. -/
def cx_light_item : Item :=
  { base_item with
    id := "H3", weight := 3, is_waste := true, is_placed := true,
    container_id := some "WZ1" }

/-- Snapshot for the C2 witness. -/
def cx_store_c2 : Store :=
  { containers := [cx_waste_zone_container], items := [cx_heavy_item, cx_light_item] }

/-- An over-capacity snapshot: capacity-0 container holding one placed item. -/
def cx_overfull_container : Container :=
  { id := "OC1", width := 1, height := 1, depth := 1, capacity := 0,
    container_type := "storage", zone := some "A" }

/-- The item recorded inside the capacity-0 container. -/
def cx_overfull_item : Item :=
  { base_item with
    id := "OI1", priority := 10, is_placed := true,
    container_id := some "OC1" }

/-- Snapshot for the C3 counterexample (snapshot already above capacity). -/
def cx_store_c3 : Store :=
  { containers := [cx_overfull_container], items := [cx_overfull_item] }

/-- Fully used source container for the C3 witness. -/
def cx_src_container : Container :=
  { id := "SRC", width := 1, height := 1, depth := 1, capacity := 5,
    container_type := "storage", zone := some "A" }

/-- Empty destination container for the C3 witness. -/
def cx_dst_container : Container :=
  { id := "DST", width := 2, height := 2, depth := 2, capacity := 5,
    container_type := "storage", zone := some "A" }

/-- The low-priority item filling `cx_src_container`. -/
def cx_movable_item : Item :=
  { base_item with
    id := "MV1", priority := 10, is_placed := true,
    container_id := some "SRC" }

/-- Snapshot for the C3 witness: one movement is generated. -/
def cx_store_c3w : Store :=
  { containers := [cx_src_container, cx_dst_container], items := [cx_movable_item] }

/-- An item whose expiry date equals the current date (day 100). -/
def cx_expiring_today : Item := { base_item with id := "E1", expiry_date := some 100 }

/-- A waste item with no usage limit, targeted by a usage-plan entry. -/
def cx_waste_used : Item := { base_item with id := "WU1", is_waste := true }

/-- The empty snapshot. -/
def cx_empty_store : Store := { containers := [], items := [] }

/-- Snapshot holding only the item expiring today. -/
def cx_store_c6 : Store := { containers := [], items := [cx_expiring_today] }

/-- An item with three distinct native dimensions, for the rotation claim. -/
def cx_item_c10 : Item := { base_item with id := "R1", width := 1, height := 2, depth := 3 }

/-- The record `place_items` produces for `cx_plain_item` in `cx_store_c5`. -/
def cx_placed_plain : Item :=
  { cx_plain_item with container_id := some "CONT1", is_placed := true }

/-! ## Shared helper lemmas -/

theorem insertOrd_perm (lt : α → α → Bool) (a : α) (l : List α) :
    (insertOrd lt a l).Perm (a :: l) := by
  induction l with
  | nil => exact List.Perm.refl _
  | cons b rest ih =>
    by_cases h : lt b a = true
    · simpa [insertOrd, h] using (ih.cons b).trans (List.Perm.swap a b rest)
    · simp [insertOrd, h]

theorem sortOrd_perm (lt : α → α → Bool) (l : List α) : (sortOrd lt l).Perm l := by
  induction l with
  | nil => exact List.Perm.refl _
  | cons a rest ih => exact (insertOrd_perm lt a _).trans (ih.cons a)

theorem mem_sortOrd {lt : α → α → Bool} {l : List α} {a : α} :
    a ∈ sortOrd lt l ↔ a ∈ l :=
  (sortOrd_perm lt l).mem_iff

theorem foldl_min_mem (f : α → ℚ) (l : List α) (b : α) :
    l.foldl (fun best x => if f x < f best then x else best) b ∈ b :: l := by
  induction l generalizing b with
  | nil => simp
  | cons x rest ih =>
    simp only [List.foldl_cons]
    have h := ih (if f x < f b then x else b)
    rcases List.mem_cons.mp h with h1 | h1
    · rw [h1]
      split
      · simp
      · simp
    · simp [List.mem_cons, h1]

theorem min_by_q_mem {f : α → ℚ} {l : List α} {a : α} (h : min_by_q f l = some a) :
    a ∈ l := by
  cases l with
  | nil => simp [min_by_q] at h
  | cons b rest =>
    simp only [min_by_q, Option.some.injEq] at h
    rw [← h]
    exact foldl_min_mem f rest b

theorem find?_updateFirst_decomp (p : α → Bool) (f : α → α) (l : List α) (a : α)
    (h : l.find? p = some a) :
    ∃ l₁ l₂, l = l₁ ++ a :: l₂ ∧ (∀ x ∈ l₁, p x = false) ∧
      updateFirst p f l = l₁ ++ f a :: l₂ := by
  induction l with
  | nil => simp at h
  | cons b rest ih =>
    by_cases hb : p b = true
    · rw [List.find?_cons_of_pos _ hb] at h
      obtain rfl : b = a := by injection h
      exact ⟨[], rest, by simp, by simp, by simp [updateFirst, hb]⟩
    · rw [List.find?_cons_of_neg _ (by simpa using hb)] at h
      obtain ⟨l₁, l₂, h1, h2, h3⟩ := ih h
      refine ⟨b :: l₁, l₂, by simp [h1], ?_, by simp [updateFirst, hb, h3]⟩
      intro x hx
      rcases List.mem_cons.mp hx with rfl | hx
      · simpa using hb
      · exact h2 x hx

/-! ## Claim C1 — obstruction set of the retrieval solver -/

theorem blocks_retrieval_iff (item J : Item) (hI : 0 < item.depth) (hJ : 0 < J.depth) :
    blocks_retrieval item J = true ↔
      (J.position_z < item.position_z ∧ xy_projections_overlap item J) := by
  have h1 : ¬(item.position_z + item.depth ≤ item.position_z) := by linarith
  have h2 : ¬(item.position_z + J.depth ≤ item.position_z) := by linarith
  simp only [blocks_retrieval, check_collision, xy_projections_overlap,
    Bool.and_eq_true, decide_eq_true_eq, Bool.not_eq_true', Bool.or_eq_false_iff,
    decide_eq_false_iff_not, not_or, h1, h2]
  tauto

/-- C1: an item `J` is in the disturbed set computed by the retrieval solver
for target `item` (recorded in container `cid`) iff `J` is a placed item of
the same container, distinct from the target, with `J.position_z <
item.position_z` and overlapping XY projections under the open-interval rule
(for items of positive depth, the target-`z` substitution made by the source
neutralises the `z`-axis test of `_check_collision`); moreover the disturbed
set does not depend on the order of the snapshot's item rows, hence not on
the order placements were made. -/
theorem retrieval_disturbed_characterization
    (items : List Item) (cid : String) (item J : Item)
    (hI : 0 < item.depth) (hJ : 0 < J.depth) :
    (J ∈ disturbed_of item (container_items items cid item.id) ↔
      (J ∈ items ∧ J.container_id = some cid ∧ J.id ≠ item.id ∧ J.is_placed = true ∧
        J.position_z < item.position_z ∧ xy_projections_overlap item J)) ∧
    (∀ l₁ l₂ : List Item, l₁.Perm l₂ →
      (disturbed_of item (container_items l₁ cid item.id)).Perm
        (disturbed_of item (container_items l₂ cid item.id))) := by
  constructor
  · simp only [disturbed_of, container_items, List.mem_filter, Bool.and_eq_true,
      beq_iff_eq, bne_iff_ne, ne_eq, blocks_retrieval_iff item J hI hJ]
    tauto
  · intro l₁ l₂ hp
    exact (hp.filter _).filter _

/-- Witness for C1 at the spec's obstruction scenario (`A` above `B`). -/
theorem retrieval_disturbed_characterization_witness :
    (0 : ℚ) < cx_item_A.depth ∧ (0 : ℚ) < cx_item_B.depth ∧
    ((cx_item_B ∈ disturbed_of cx_item_A
        (container_items cx_store_c9.items "CONTA" cx_item_A.id) ↔
      (cx_item_B ∈ cx_store_c9.items ∧ cx_item_B.container_id = some "CONTA" ∧
        cx_item_B.id ≠ cx_item_A.id ∧ cx_item_B.is_placed = true ∧
        cx_item_B.position_z < cx_item_A.position_z ∧
        xy_projections_overlap cx_item_A cx_item_B)) ∧
     (∀ l₁ l₂ : List Item, l₁.Perm l₂ →
      (disturbed_of cx_item_A (container_items l₁ "CONTA" cx_item_A.id)).Perm
        (disturbed_of cx_item_A (container_items l₂ "CONTA" cx_item_A.id)))) :=
  ⟨by decide, by decide,
    retrieval_disturbed_characterization cx_store_c9.items "CONTA" cx_item_A cx_item_B
      (by decide) (by decide)⟩

/-! ## Claim C6 — waste classification of an item expiring today -/

/-- C6 counterexample: an item whose `expiry_date` equals the current date
(day 100) is **not** marked as waste by the classifier, because the source
compares with strict `<` (`Item.expiry_date < today`). -/
theorem expiry_today_not_marked_counterexample :
    cx_expiring_today.expiry_date = some 100 ∧ cx_expiring_today.is_waste = false ∧
    cx_expiring_today.usage_limit = none ∧
    (manage_waste_mark 100 cx_store_c6).items.map (fun i => i.is_waste) = [false] := by
  decide

/-- C6 (amended): the waste classifier marks an item as waste iff it already
was waste, its expiry date is strictly before the current date, or its usage
limit is set and reached; in particular an item expiring exactly today is not
classified as waste. -/
theorem manage_waste_marking_rule (today : ℤ) (store : Store) :
    (manage_waste_mark today store).items = store.items.map (mark_waste today) ∧
    (∀ i : Item, ((mark_waste today i).is_waste = true ↔
      (i.is_waste = true ∨ (∃ d, i.expiry_date = some d ∧ d < today) ∨
        (∃ l, i.usage_limit = some l ∧ l ≤ i.usage_count)))) := by
  refine ⟨rfl, fun i => ?_⟩
  rcases hd : i.expiry_date with _ | d <;> rcases hl : i.usage_limit with _ | l <;>
    rcases hw : i.is_waste <;>
      simp [mark_waste, expired_query, fully_used_query, hd, hl, hw] <;>
        split_ifs with hif <;> simp_all

/-! ## Claim C7 — usage application of the time simulator -/

/-- C7 counterexample: a usage-plan entry targeting an item that is already
waste (and has no usage limit) still increments its `usage_count` — the
simulator applies the increment unconditionally. -/
theorem usage_increment_waste_counterexample :
    cx_waste_used.is_waste = true ∧ cx_waste_used.usage_limit = none ∧
    cx_waste_used.usage_count = 0 ∧
    (apply_usage [cx_waste_used] [("WU1", 3)]).map (fun i => i.usage_count) = [3] ∧
    (apply_usage [cx_waste_used] [("WU1", 3)]).map (fun i => i.usage_count) ≠ [0] := by
  decide

/-- C7 (amended): for a usage-plan entry `(id, n)`, whenever the lookup finds
an item, the first matching row's `usage_count` is incremented by `n` and
every other row is unchanged — with no condition on `is_waste` or
`usage_limit`. -/
theorem usage_entry_increments_unconditionally
    (items : List Item) (id : String) (n : ℤ) (i : Item)
    (hfind : items.find? (fun x => x.id == id) = some i) :
    ∃ l₁ l₂, items = l₁ ++ i :: l₂ ∧ (∀ x ∈ l₁, (x.id == id) = false) ∧
      apply_usage_entry items (id, n) =
        l₁ ++ { i with usage_count := i.usage_count + n } :: l₂ := by
  obtain ⟨l₁, l₂, h1, h2, h3⟩ := find?_updateFirst_decomp (fun x => x.id == id)
    (fun x => { x with usage_count := x.usage_count + n }) items i hfind
  refine ⟨l₁, l₂, h1, h2, ?_⟩
  simpa only [apply_usage_entry, hfind] using h3

/-- Witness for C7 on the concrete waste item. -/
theorem usage_entry_increments_unconditionally_witness :
    ([cx_waste_used].find? (fun x => x.id == "WU1") = some cx_waste_used) ∧
    (∃ l₁ l₂, [cx_waste_used] = l₁ ++ cx_waste_used :: l₂ ∧
      (∀ x ∈ l₁, (x.id == "WU1") = false) ∧
      apply_usage_entry [cx_waste_used] ("WU1", 3) =
        l₁ ++ { cx_waste_used with
                usage_count := cx_waste_used.usage_count + 3 } :: l₂) :=
  ⟨by decide,
    usage_entry_increments_unconditionally [cx_waste_used] "WU1" 3 cx_waste_used (by decide)⟩

/-! ## Claim C8 — access-prioritization thresholds -/

/-- C8 counterexample: a priority-72 item with no preferred zone is placed by
the fallback pass *without* access prioritization — it lands at the back
(`z = 2`) of the deep container, while the access-prioritized search at the
same inputs would return the front position `z = 0`. -/
theorem access_mode_72_counterexample :
    cx_item72.priority = 72 ∧ cx_item72.preferred_zone = none ∧
    (place_items cx_store_c8 (some [cx_item72])).placed_items.map
      (fun i => i.position_z) = [2] ∧
    (find_position_with_rotation cx_deep_container cx_item72 [] true).1 = some (0, 0, 0) ∧
    ((2 : ℚ) ≠ 0) := by
  decide

/-- C8 (amended): the access flag handed to the position search is
`priority > 75` in *both* passes: the flag definition is exactly that
comparison, and `_try_place_in_containers` ignores its
`prioritize_preferred` argument entirely, so the preferred-zone pass and the
fallback pass behave identically. -/
theorem access_threshold_same_in_both_passes :
    (∀ item : Item, place_access_flag item = decide (75 < item.priority)) ∧
    (∀ (item : Item) (containers : List Container) (counts : String → ℤ)
        (placed_items store_items : List Item),
      try_place_in_containers item containers counts placed_items store_items true =
        try_place_in_containers item containers counts placed_items store_items false) :=
  ⟨fun _ => rfl, fun _ _ _ _ _ => rfl⟩

/-! ## Claim C2 — undocking plan budget -/

theorem undocking_select_sublist (mw : ℚ) : ∀ (l : List Item) (cw : ℚ),
    (undocking_select mw l cw).1.Sublist l := by
  intro l
  induction l with
  | nil => intro cw; simp [undocking_select]
  | cons i rest ih =>
    intro cw
    simp only [undocking_select]
    by_cases h : cw + i.weight ≤ mw
    · rcases hs : undocking_select mw rest (cw + i.weight) with ⟨sel, w⟩
      simp only [h, if_true, hs]
      exact List.Sublist.cons₂ i (by simpa [hs] using ih (cw + i.weight))
    · simp only [h, if_false]
      exact List.Sublist.cons i (ih cw)

theorem undocking_select_sum (mw : ℚ) : ∀ (l : List Item) (cw : ℚ),
    (undocking_select mw l cw).2 =
      cw + (((undocking_select mw l cw).1.map (fun i => i.weight)).sum) := by
  intro l
  induction l with
  | nil => intro cw; simp [undocking_select]
  | cons i rest ih =>
    intro cw
    simp only [undocking_select]
    by_cases h : cw + i.weight ≤ mw
    · rcases hs : undocking_select mw rest (cw + i.weight) with ⟨sel, w⟩
      have := ih (cw + i.weight)
      rw [hs] at this
      simp only [h, if_true, hs]
      simp only [List.map_cons, List.sum_cons]
      simp at this ⊢
      linarith [this]
    · simp only [h, if_false]
      exact ih cw

theorem undocking_select_le (mw : ℚ) : ∀ (l : List Item) (cw : ℚ), cw ≤ mw →
    (undocking_select mw l cw).2 ≤ mw := by
  intro l
  induction l with
  | nil => intro cw h; simpa [undocking_select] using h
  | cons i rest ih =>
    intro cw h
    simp only [undocking_select]
    by_cases hc : cw + i.weight ≤ mw
    · rcases hs : undocking_select mw rest (cw + i.weight) with ⟨sel, w⟩
      have := ih (cw + i.weight) hc
      rw [hs] at this
      simpa [hc, hs] using this
    · simpa [hc] using ih cw h

/-- C2 (amended): for a non-negative `max_weight`, the undocking plan's
`total_weight` equals the sum of the selected items' masses, stays within the
budget, and the selection is a sublist of the waste-zone candidates taken in
descending `(priority, weight)` order.  (For a negative `max_weight` the
empty selection is returned with `total_weight = 0`, which exceeds the
budget — see the counterexample.) -/
theorem undocking_plan_budget (store : Store) (max_weight : ℚ) (hmw : 0 ≤ max_weight) :
    (generate_undocking_plan store max_weight).total_weight =
      (((generate_undocking_plan store max_weight).items_in_plan.map
        (fun e => e.weight)).sum) ∧
    (generate_undocking_plan store max_weight).total_weight ≤ max_weight ∧
    (∃ sel : List Item, sel.Sublist (undocking_candidates store) ∧
      (generate_undocking_plan store max_weight).items_in_plan = sel.map (fun i =>
        ({ item_id := i.id, item_name := i.name, weight := i.weight,
           source_container_id := i.container_id } : UndockingEntry))) := by
  unfold generate_undocking_plan
  by_cases h1 : (waste_zone_containers store).isEmpty
  · simp only [h1, if_true]
    exact ⟨by simp, by simpa using hmw, [], List.nil_sublist _, by simp⟩
  · simp only [h1, if_false]
    by_cases h2 : (undocking_candidates store).isEmpty
    · simp only [h2, if_true]
      exact ⟨by simp, by simpa using hmw, [], List.nil_sublist _, by simp⟩
    · simp only [h2, if_false]
      rcases hs : undocking_select max_weight (undocking_candidates store) 0 with ⟨sel, w⟩
      have hsum := undocking_select_sum max_weight (undocking_candidates store) 0
      have hle := undocking_select_le max_weight (undocking_candidates store) 0 hmw
      have hsub := undocking_select_sublist max_weight (undocking_candidates store) 0
      rw [hs] at hsum hle hsub
      simp only [hs]
      simp only [Bool.not_eq_true] at h1 h2
      simp only [h1, h2, Bool.false_eq_true, if_false, List.map_map]
      refine ⟨?_, by simpa using hle, sel, hsub, rfl⟩
      simpa using hsum

/-- Witness for C2 on a waste-zone snapshot with 5 kg and 3 kg items and a
7 kg budget (the 5 kg item is selected, the 3 kg one skipped). -/
theorem undocking_plan_budget_witness :
    ((0 : ℚ) ≤ 7) ∧
    ((generate_undocking_plan cx_store_c2 7).total_weight =
      (((generate_undocking_plan cx_store_c2 7).items_in_plan.map
        (fun e => e.weight)).sum) ∧
     (generate_undocking_plan cx_store_c2 7).total_weight ≤ 7 ∧
     (∃ sel : List Item, sel.Sublist (undocking_candidates cx_store_c2) ∧
      (generate_undocking_plan cx_store_c2 7).items_in_plan = sel.map (fun i =>
        ({ item_id := i.id, item_name := i.name, weight := i.weight,
           source_container_id := i.container_id } : UndockingEntry)))) :=
  ⟨by norm_num, undocking_plan_budget cx_store_c2 7 (by norm_num)⟩

/-- C2 counterexample: for `max_weight = −1` the generator returns
`total_weight = 0`, which is *not* `≤ max_weight`, refuting the claim's
unrestricted quantification over `max_weight`. -/
theorem undocking_budget_negative_counterexample :
    ¬((generate_undocking_plan cx_empty_store (-1)).total_weight ≤ -1) := by
  decide

/-! ## Claim C9 — retrieval path structure -/

theorem retrieval_steps_length (cid iid : String) (ds : List String) :
    (retrieval_steps cid iid ds).length = if ds.isEmpty then 3 else 5 + ds.length := by
  cases ds with
  | nil => rfl
  | cons d rest =>
    simp [retrieval_steps, List.length_append]
    omega

/-- C9 (amended): for a found, placed item in an existing container, the
retrieval path has `5 + |O|` entries when the obstruction set `O` is
non-empty (open container, a removal-count header line, one removal line per
obstruction, extract, replace, close) and `3` entries when it is empty; in
particular one obstruction yields a six-entry path, not five. -/
theorem retrieval_path_step_count
    (store : Store) (item_id : String) (item : Item) (cid : String) (container : Container)
    (hfind : store.items.find? (fun i => i.id == item_id) = some item)
    (hcid : item.container_id = some cid)
    (hplaced : item.is_placed = true)
    (hcont : store.containers.find? (fun c => c.id == cid) = some container) :
    (get_retrieval_path store item_id).path.length =
      (if (get_retrieval_path store item_id).disturbed_items.isEmpty then 3
       else 5 + (get_retrieval_path store item_id).disturbed_items.length) := by
  simp only [get_retrieval_path, hfind, hcid, hplaced, hcont]
  exact retrieval_steps_length _ _ _

/-- Witness for C9 at the scenario-3 snapshot. -/
theorem retrieval_path_step_count_witness :
    (cx_store_c9.items.find? (fun i => i.id == "A") = some cx_item_A) ∧
    (cx_item_A.container_id = some "CONTA") ∧
    (cx_item_A.is_placed = true) ∧
    (cx_store_c9.containers.find? (fun c => c.id == "CONTA") = some cx_container_a) ∧
    ((get_retrieval_path cx_store_c9 "A").path.length =
      (if (get_retrieval_path cx_store_c9 "A").disturbed_items.isEmpty then 3
       else 5 + (get_retrieval_path cx_store_c9 "A").disturbed_items.length)) :=
  ⟨by decide, by decide, by decide, by decide,
    retrieval_path_step_count cx_store_c9 "A" cx_item_A "CONTA" cx_container_a
      (by decide) (by decide) (by decide) (by decide)⟩

/-- C9 counterexample: retrieving item `A` of the spec's obstruction scenario
(one obstructing item `B`) yields a path of **six** entries — the removal
header line makes it `5 + |O|` — and not the claimed five. -/
theorem retrieval_path_six_steps_counterexample :
    (get_retrieval_path cx_store_c9 "A").disturbed_items = ["B"] ∧
    (get_retrieval_path cx_store_c9 "A").path.length = 6 ∧
    (get_retrieval_path cx_store_c9 "A").path.length ≠ 5 := by
  refine ⟨by decide, ?_, ?_⟩ <;>
    simp [get_retrieval_path, container_items, disturbed_of, cx_store_c9, cx_item_A,
      cx_item_B, cx_container_a, retrieval_steps, blocks_retrieval, check_collision,
      base_item]

/-! ## Claim C10 — rotation overwrites stored dimensions -/

/-- C10: when the capacity re-check passes, `_place_item` returns the item
record with its `width`, `height`, `depth` columns overwritten by the chosen
orientation and the placement fields set — the record is fully determined by
this equation and retains the native dimensions in no field, so every
subsequent operation reads the rotated dimensions as the item's own. -/
theorem place_item_overwrites_dimensions
    (store_items : List Item) (item : Item) (container : Container)
    (x y z w h d : ℚ)
    (hcap : ((store_items.filter (fun i =>
      i.container_id == some container.id && i.is_placed)).length : ℤ) < container.capacity) :
    place_item store_items item container (x, y, z) (some (w, h, d)) =
      some ({ item with
                width := w, height := h, depth := d,
                container_id := some container.id,
                position_x := x, position_y := y, position_z := z, is_placed := true },
        updateFirst (fun i => i.id == item.id)
          (fun _ => { item with
                width := w, height := h, depth := d,
                container_id := some container.id,
                position_x := x, position_y := y, position_z := z, is_placed := true })
          store_items) := by
  unfold place_item
  rw [if_neg (by simpa using not_le.mpr hcap)]
  by_cases hdiff : w ≠ item.width ∨ h ≠ item.height ∨ d ≠ item.depth
  · simp only [hdiff, if_true]
  · push_neg at hdiff
    obtain ⟨hw, hh, hd2⟩ := hdiff
    subst hw
    subst hh
    subst hd2
    simp

/-- Witness for C10: rotating a `(1,2,3)` item to `(3,1,2)`. -/
theorem place_item_overwrites_dimensions_witness :
    ((((([] : List Item).filter (fun i =>
      i.container_id == some cx_storage_container.id && i.is_placed)).length : ℤ) <
        cx_storage_container.capacity) ∧
    place_item [] cx_item_c10 cx_storage_container (0, 0, 0) (some (3, 1, 2)) =
      some ({ cx_item_c10 with
                width := 3, height := 1, depth := 2,
                container_id := some cx_storage_container.id,
                position_x := 0, position_y := 0, position_z := 0, is_placed := true },
        updateFirst (fun i => i.id == cx_item_c10.id)
          (fun _ => { cx_item_c10 with
                width := 3, height := 1, depth := 2,
                container_id := some cx_storage_container.id,
                position_x := 0, position_y := 0, position_z := 0, is_placed := true })
          [])) :=
  ⟨by decide,
    place_item_overwrites_dimensions [] cx_item_c10 cx_storage_container 0 0 0 3 1 2
      (by decide)⟩

/-! ## Claims C4 and C5 — counterexamples -/

/-- C4 counterexample: a waste item is happily placed into a storage-kind
container by `place_items` — the planner's only segregation guard excludes
non-waste items from containers whose id starts with `WST`; nothing stops a
waste item from entering a storage container. -/
theorem waste_in_storage_counterexample :
    cx_waste_item.is_waste = true ∧
    cx_storage_container.container_type = "storage" ∧
    (place_items cx_store_c4 (some [cx_waste_item])).placed_items.map
      (fun i => (i.id, i.container_id)) = [("W1", some "CONT1")] := by
  decide

/-- C5 counterexample: with one capacity-1 container and a single fitting
item, the claimed governor cap is `⌊1 · 0.3⌋ = 0` items, yet the planner
places the item: no capacity governor exists anywhere in the source. -/
theorem governor_cap_counterexample :
    spec_governor_cap 1 1 = 0 ∧
    (place_items cx_store_c5 (some [cx_plain_item])).placed_count = 1 ∧
    ¬(((place_items cx_store_c5 (some [cx_plain_item])).placed_count : ℤ) ≤
        spec_governor_cap 1 1) := by
  refine ⟨by decide, by decide, by decide⟩


/-! ## Claim C3 — rearrangement capacity safety -/

theorem foldl_preserve {α β : Type _} (op : β → α → β) (P : β → Prop) :
    ∀ (l : List α) (b : β), P b → (∀ b' a, P b' → a ∈ l → P (op b' a)) →
      P (l.foldl op b) := by
  intro l
  induction l with
  | nil => intro b hb _; simpa using hb
  | cons x rest ih =>
    intro b hb hstep
    simp only [List.foldl_cons]
    exact ih (op b x) (hstep b x hb (by simp))
      (fun b' a hb' ha => hstep b' a hb' (by simp [ha]))

theorem pick_step_spec (store : Store) (usage : String → ℤ)
    (from_container : Container) (item : Item) (b : Option (Container × ℚ))
    (a : Container) (c : Container) (f : ℚ)
    (h : pick_step store usage from_container item b a = some (c, f)) :
    b = some (c, f) ∨ (usage c.id < c.capacity ∧ c.id ≠ from_container.id ∧ c = a) := by
  unfold pick_step at h
  split at h
  · exact Or.inl h
  · split at h
    · exact Or.inl h
    · rename_i h1 h2
      have hlt : usage a.id < a.capacity := by
        rcases lt_or_ge (usage a.id) a.capacity with hx | hx
        · exact hx
        · exact absurd (by simpa using hx) h2
      have hne : a.id ≠ from_container.id := by simpa using h1
      split at h
      · simp only [] at h
        split at h
        · simp only [Option.some.injEq, Prod.mk.injEq] at h
          obtain ⟨rfl, -⟩ := h
          exact Or.inr ⟨hlt, hne, rfl⟩
        · simp at h
      · simp only [] at h
        split at h
        · split at h
          · simp only [Option.some.injEq, Prod.mk.injEq] at h
            obtain ⟨rfl, -⟩ := h
            exact Or.inr ⟨hlt, hne, rfl⟩
          · exact Or.inl h
        · exact Or.inl h

theorem pick_from_targets_spec (store : Store) (targets : List Container)
    (usage : String → ℤ) (from_container : Container) (item : Item)
    (c : Container) (f : ℚ)
    (h : pick_from_targets store targets usage from_container item = some (c, f)) :
    usage c.id < c.capacity ∧ c.id ≠ from_container.id ∧ c ∈ targets := by
  unfold pick_from_targets at h
  revert h
  refine foldl_preserve (pick_step store usage from_container item)
    (fun r => r = some (c, f) → usage c.id < c.capacity ∧ c.id ≠ from_container.id ∧
      c ∈ targets) targets none (fun h => by simp at h) ?_
  intro b a hb ha hr
  rcases pick_step_spec store usage from_container item b a c f hr with h1 | ⟨h1, h2, rfl⟩
  · exact hb h1
  · exact ⟨h1, h2, ha⟩

theorem foc_score_entry_snd (store : Store) (item : Item) (a : Container)
    (p : ℚ × Container) (h : foc_score_entry store item a = some p) : p.2 = a := by
  unfold foc_score_entry at h
  rcases hz : item.preferred_zone with _ | z
  · rw [hz] at h
    simp only [] at h
    split at h
    · simp at h
    · simp only [Option.some.injEq] at h
      exact (congrArg Prod.snd h).symm
  · rw [hz] at h
    simp only [] at h
    split at h
    · simp at h
    · simp only [Option.some.injEq] at h
      exact (congrArg Prod.snd h).symm

theorem find_optimal_container_mem (store : Store) (item : Item)
    (c : Container) (f : ℚ)
    (h : find_optimal_container store item = some (c, f)) : c ∈ store.containers := by
  unfold find_optimal_container at h
  simp only [] at h
  split at h
  · simp at h
  · rename_i s best heq
    simp only [Option.some.injEq, Prod.mk.injEq] at h
    obtain ⟨hbc, -⟩ := h
    have hm := min_by_q_mem heq
    rw [List.mem_filterMap] at hm
    obtain ⟨a, ha, hga⟩ := hm
    have h2 := foc_score_entry_snd store item a (s, best) hga
    simp only at h2
    rw [← hbc, h2]
    exact ha

theorem pick_target_spec (store : Store) (targets : List Container)
    (usage : String → ℤ) (from_container : Container) (item : Item) (c : Container)
    (h : pick_target store targets usage from_container item = some c) :
    usage c.id < c.capacity ∧ c.id ≠ from_container.id ∧
      (c ∈ targets ∨ c ∈ store.containers) := by
  unfold pick_target at h
  rcases hp : pick_from_targets store targets usage from_container item with _ | ⟨c1, f1⟩
  · rw [hp] at h
    rcases hf : find_optimal_container store item with _ | ⟨cand, fs⟩
    · rw [hf] at h
      simp at h
    · rw [hf] at h
      simp only [] at h
      by_cases hg : (cand.id != from_container.id &&
          decide (usage cand.id < cand.capacity)) = true
      · rw [if_pos hg] at h
        simp only [] at h
        simp only [Bool.and_eq_true, bne_iff_ne, ne_eq, decide_eq_true_eq] at hg
        obtain ⟨hgne, hglt⟩ := hg
        split at h
        · simp at h
        · simp only [Option.some.injEq] at h
          subst h
          exact ⟨hglt, hgne, Or.inr (find_optimal_container_mem store item cand fs hf)⟩
      · rw [if_neg hg] at h
        simp at h
  · rw [hp] at h
    simp only [] at h
    obtain ⟨hlt, hne, hmem⟩ := pick_from_targets_spec store targets usage
      from_container item c1 f1 hp
    split at h
    · simp at h
    · simp only [Option.some.injEq] at h
      subst h
      exact ⟨hlt, hne, Or.inl hmem⟩

theorem potential_targets_subset (store : Store) (util : String → ℚ)
    (sources : List Container) :
    ∀ c ∈ potential_targets_of store util sources, c ∈ store.containers := by
  intro c hc
  unfold potential_targets_of at hc
  simp only [] at hc
  split at hc
  · exact (List.mem_filter.mp (List.mem_filter.mp hc).1).1
  · split at hc
    · exact (List.mem_filter.mp (List.mem_filter.mp hc).1).1
    · exact (List.mem_filter.mp (List.mem_filter.mp hc).1).1

theorem apply_movements_cons (usage : String → ℤ) (m : RearrangementMovement)
    (l : List RearrangementMovement) :
    apply_movements usage (m :: l) = apply_movements (apply_movement usage m) l := rfl

theorem apply_movement_le (usage : String → ℤ) (m : RearrangementMovement)
    (store : Store) (hnd : (store.containers.map (fun c => c.id)).Nodup)
    (to_c : Container) (hto : to_c ∈ store.containers)
    (hmt : m.to_container_id = to_c.id)
    (hlt : usage to_c.id < to_c.capacity)
    (hu : ∀ c ∈ store.containers, usage c.id ≤ c.capacity) :
    ∀ c ∈ store.containers, apply_movement usage m c.id ≤ c.capacity := by
  intro c hc
  unfold apply_movement
  simp only []
  by_cases h1 : c.id = m.to_container_id
  · have hceq : c = to_c :=
      List.inj_on_of_nodup_map hnd hc hto (h1.trans hmt)
    rw [if_pos h1]
    by_cases h2 : c.id = m.from_container_id
    · rw [if_pos h2]
      have := hu c hc
      omega
    · rw [if_neg h2]
      have hlt' : usage c.id < c.capacity := by
        rw [hceq]
        exact hlt
      omega
  · rw [if_neg h1]
    by_cases h2 : c.id = m.from_container_id
    · rw [if_pos h2]
      have := hu c hc
      omega
    · rw [if_neg h2]
      exact hu c hc

theorem movement_loop_capacity (store : Store) (targets : List Container) (mm : ℕ)
    (hT : ∀ c ∈ targets, c ∈ store.containers)
    (hnd : (store.containers.map (fun c => c.id)).Nodup) :
    ∀ (ms : List (Item × Container)) (i : ℕ) (usage : String → ℤ)
      (um : List (String × ℚ)),
      (∀ c ∈ store.containers, usage c.id ≤ c.capacity) →
      ∀ (k : ℕ), ∀ c ∈ store.containers,
        apply_movements usage
          (((movement_loop store targets mm ms i usage um).1).take k) c.id ≤
          c.capacity := by
  intro ms
  induction ms with
  | nil =>
    intro i usage um hu k c hc
    simpa [movement_loop, apply_movements] using hu c hc
  | cons p rest ih =>
    rcases p with ⟨item, from_container⟩
    intro i usage um hu k c hc
    by_cases hi : mm ≤ i
    · have hz : (movement_loop store targets mm
          ((item, from_container) :: rest) i usage um).1 = [] := by
        simp [movement_loop, hi]
      rw [hz]
      simpa [apply_movements] using hu c hc
    · rcases hp : pick_target store targets usage from_container item with _ | to_c
      · have hz : (movement_loop store targets mm
            ((item, from_container) :: rest) i usage um).1 =
            (movement_loop store targets mm rest (i + 1) usage um).1 := by
          simp only [movement_loop]
          rw [if_neg hi, hp]
        rw [hz]
        exact ih (i + 1) usage um hu k c hc
      · obtain ⟨hlt, hne, hmem⟩ :=
          pick_target_spec store targets usage from_container item to_c hp
        have hmemC : to_c ∈ store.containers := hmem.elim (fun hh => hT _ hh) id
        have hu2 : ∀ c' ∈ store.containers,
            apply_movement usage
              { step := i + 1, item_id := item.id, item_name := item.name,
                from_container_id := from_container.id, to_container_id := to_c.id,
                from_zone := from_container.zone, to_zone := to_c.zone,
                estimated_time := estimate_movement_time item from_container to_c,
                priority := item.priority } c'.id ≤ c'.capacity :=
          apply_movement_le usage _ store hnd to_c hmemC rfl hlt hu
        simp only [movement_loop]
        rw [if_neg hi, hp]
        simp only []
        cases k with
        | zero =>
          rw [List.take_zero]
          simpa [apply_movements] using hu c hc
        | succ k' =>
          rw [List.take_succ_cons, apply_movements_cons]
          exact ih (i + 1) _ _ hu2 k' c hc

theorem generate_plan_movements (store : Store) (st : ℚ) (pt : ℤ) (mm : ℕ) :
    (generate_rearrangement_plan store st pt mm).movements = [] ∨
    ∃ (movable : List (Item × Container)) (um : List (String × ℚ)),
      (generate_rearrangement_plan store st pt mm).movements =
        (movement_loop store
          (potential_targets_of store
            (fun cid => calculate_container_utilization store cid)
            (source_containers_of store
              (fun cid => calculate_container_utilization store cid)
              (get_disorganized_containers store)))
          mm movable 0 (initial_counts store) um).1 := by
  unfold generate_rearrangement_plan
  simp only []
  split
  · left; rfl
  · split
    · left; rfl
    · split
      · left; rfl
      · right
        exact ⟨_, _, rfl⟩

/-- C3 (amended): for every snapshot whose container ids are distinct (they
are a primary key) and whose per-container placed-item counts are within
capacity, every prefix of the returned rearrangement plan's move sequence,
applied in order to the snapshot's per-container counts, leaves every
container at or below its capacity.  (A snapshot that already violates
capacity makes the claim fail at the empty prefix — see the
counterexample.) -/
theorem rearrangement_capacity_safety (store : Store) (space_target : ℚ)
    (priority_threshold : ℤ) (max_movements : ℕ)
    (hnd : (store.containers.map (fun c => c.id)).Nodup)
    (hinit : ∀ c ∈ store.containers, initial_counts store c.id ≤ c.capacity) :
    ∀ (k : ℕ), ∀ c ∈ store.containers,
      apply_movements (initial_counts store)
        (((generate_rearrangement_plan store space_target priority_threshold
          max_movements).movements).take k) c.id ≤ c.capacity := by
  intro k c hc
  rcases generate_plan_movements store space_target priority_threshold max_movements
    with h | ⟨movable, um, h⟩
  · rw [h]
    simp only [List.take_nil]
    simpa [apply_movements] using hinit c hc
  · rw [h]
    exact movement_loop_capacity store _ max_movements
      (potential_targets_subset store _ _) hnd movable 0 (initial_counts store) um
      hinit k c hc

/-- C3 counterexample: a snapshot whose capacity-0 container already holds a
placed item makes the claim fail at the empty prefix of the returned plan's
(empty) move sequence. -/
theorem rearrangement_capacity_counterexample :
    ¬(∀ (k : ℕ), ∀ c ∈ cx_store_c3.containers,
      apply_movements (initial_counts cx_store_c3)
        (((generate_rearrangement_plan cx_store_c3 15 30 10).movements).take k) c.id ≤
        c.capacity) := by
  intro h
  have h2 := h 0 cx_overfull_container (by decide)
  rw [List.take_zero] at h2
  exact absurd h2 (by decide)

/-- Witness for C3 on a two-container snapshot where one movement (the
low-priority item of the full source container into the empty destination)
is generated. -/
theorem rearrangement_capacity_safety_witness :
    ((cx_store_c3w.containers.map (fun c => c.id)).Nodup) ∧
    (∀ c ∈ cx_store_c3w.containers, initial_counts cx_store_c3w c.id ≤ c.capacity) ∧
    (∀ (k : ℕ), ∀ c ∈ cx_store_c3w.containers,
      apply_movements (initial_counts cx_store_c3w)
        (((generate_rearrangement_plan cx_store_c3w 15 30 10).movements).take k) c.id ≤
        c.capacity) :=
  ⟨by decide, by decide,
    rearrangement_capacity_safety cx_store_c3w 15 30 10 (by decide) (by decide)⟩

/-! ## Claims C4 and C5 — placement loop invariants -/

theorem place_item_spec (store_items : List Item) (item : Item) (container : Container)
    (position : ℚ × ℚ × ℚ) (orientation : Option (ℚ × ℚ × ℚ)) (it2 : Item)
    (st2 : List Item)
    (h : place_item store_items item container position orientation = some (it2, st2)) :
    it2.container_id = some container.id ∧ it2.is_waste = item.is_waste := by
  rcases position with ⟨x, y, z⟩
  unfold place_item at h
  simp only [] at h
  split at h
  · simp at h
  · simp only [Option.some.injEq, Prod.mk.injEq] at h
    obtain ⟨hA, -⟩ := h
    rw [← hA]
    constructor
    · rfl
    · rcases orientation with _ | ⟨w2, h2, d2⟩
      · rfl
      · simp only []
        split <;> rfl

theorem try_place_core_spec (item : Item) :
    ∀ (cs : List Container) (counts : String → ℤ) (placed store_items : List Item)
      (it2 : Item),
      (try_place_core item cs counts placed store_items).placed_item = some it2 →
      ∃ c ∈ cs, it2.container_id = some c.id ∧ it2.is_waste = item.is_waste ∧
        (str_startsWith c.id "WST" = true → item.is_waste = true) ∧
        ((placed.filter (fun i => i.container_id == some c.id)).length : ℤ) <
          c.capacity := by
  intro cs
  induction cs with
  | nil =>
    intro counts placed store_items it2 h
    simp [try_place_core] at h
  | cons c rest ih =>
    intro counts placed store_items it2 h
    simp only [try_place_core] at h
    split at h
    · obtain ⟨c', hc', hrest⟩ := ih _ _ _ _ h
      exact ⟨c', List.mem_cons_of_mem c hc', hrest⟩
    · rename_i hg1
      split at h
      · obtain ⟨c', hc', hrest⟩ := ih _ _ _ _ h
        exact ⟨c', List.mem_cons_of_mem c hc', hrest⟩
      · rename_i hg2
        split at h
        · obtain ⟨c', hc', hrest⟩ := ih _ _ _ _ h
          exact ⟨c', List.mem_cons_of_mem c hc', hrest⟩
        · rename_i hg3
          split at h
          · rename_i position orient hfp
            split at h
            · rename_i item2 store2 hpi
              simp only [] at h
              simp only [Option.some.injEq] at h
              subst h
              obtain ⟨hcid, hwaste⟩ := place_item_spec _ _ _ _ _ _ _ hpi
              refine ⟨c, List.mem_cons_self c rest, hcid, hwaste, ?_, ?_⟩
              · intro hsw
                rcases hb : item.is_waste with _ | _
                · exact absurd (by simp [hsw, hb]) hg1
                · rfl
              · have : ¬(c.capacity ≤
                    ((placed.filter (fun i => i.container_id == some c.id)).length : ℤ)) := by
                  simpa using hg3
                omega
            · obtain ⟨c', hc', hrest⟩ := ih _ _ _ _ h
              exact ⟨c', List.mem_cons_of_mem c hc', hrest⟩
          · obtain ⟨c', hc', hrest⟩ := ih _ _ _ _ h
            exact ⟨c', List.mem_cons_of_mem c hc', hrest⟩

theorem group_by_zone_subset (cs : List Container) :
    ∀ e ∈ group_by_zone cs, ∀ c ∈ e.2, c ∈ cs := by
  unfold group_by_zone
  refine foldl_preserve _
    (fun (m : List (Option String × List Container)) => ∀ e ∈ m, ∀ c ∈ e.2, c ∈ cs)
    cs [] (by simp) ?_
  intro m a hm ha e he c hc
  split at he
  · rw [List.mem_map] at he
    obtain ⟨e0, he0, heq⟩ := he
    by_cases hz : (e0.1 == a.zone) = true
    · rw [if_pos hz] at heq
      rw [← heq] at hc
      simp only [] at hc
      rcases List.mem_append.mp hc with h1 | h1
      · exact hm e0 he0 c h1
      · have : c = a := by simpa using h1
        subst this
        exact ha
    · rw [if_neg hz] at heq
      subst heq
      exact hm e0 he0 c hc
  · rcases List.mem_append.mp he with h1 | h1
    · exact hm e h1 c hc
    · have : e = (a.zone, [a]) := by simpa using h1
      subst this
      have : c = a := by simpa using hc
      subst this
      exact ha

theorem place_one_zone_map (containers : List Container) (item : Item) (st : PlaceState) :
    ∀ e ∈ (place_one containers item st).zone_map, ∀ c ∈ e.2,
      ∃ e' ∈ st.zone_map, c ∈ e'.2 := by
  have hsz : ∀ (z : Option String) (l : List Container),
      (∀ c ∈ l, ∃ e' ∈ st.zone_map, c ∈ e'.2) →
      ∀ e ∈ set_zone_list st.zone_map z l, ∀ c ∈ e.2, ∃ e' ∈ st.zone_map, c ∈ e'.2 := by
    intro z l hl e he c hc
    unfold set_zone_list at he
    rw [List.mem_map] at he
    obtain ⟨e0, he0, heq⟩ := he
    by_cases hz : (e0.1 == z) = true
    · rw [if_pos hz] at heq
      rw [← heq] at hc
      exact hl c hc
    · rw [if_neg hz] at heq
      subst heq
      exact ⟨e0, he0, hc⟩
  unfold place_one
  simp only []
  rcases hpz : item.preferred_zone with _ | z
  · simp only [hpz]
    intro e he c hc
    split at he
    · exact ⟨e, he, hc⟩
    · exact ⟨e, he, hc⟩
  · by_cases hse : str_isEmpty z = true
    · simp only [hpz, hse, if_true]
      intro e he c hc
      split at he
      · exact ⟨e, he, hc⟩
      · exact ⟨e, he, hc⟩
    · rcases hf : st.zone_map.find? (fun e => e.1 == some z) with _ | e0
      · simp only [hpz, hse, Bool.false_eq_true, if_false, hf, Option.isSome_none]
        intro e he c hc
        split at he
        · exact ⟨e, he, hc⟩
        · exact ⟨e, he, hc⟩
      · have hzl : ∀ c ∈ e0.2, ∃ e' ∈ st.zone_map, c ∈ e'.2 :=
          fun c hc => ⟨e0, List.mem_of_find?_eq_some hf, hc⟩
        have hsorted : ∀ c ∈ (try_place_in_containers item e0.2 st.counts
            st.placed_items st.store_items true).1, ∃ e' ∈ st.zone_map, c ∈ e'.2 := by
          intro c hc
          unfold try_place_in_containers at hc
          simp only [] at hc
          exact hzl c (mem_sortOrd.mp hc)
        intro e he c hc
        simp only [hpz, hse, Bool.false_eq_true, if_false, hf, Option.isSome_some,
          if_true, Option.map_some', Option.getD_some] at he
        split at he
        · exact hsz (some z) _ hsorted e he c hc
        · split at he
          · exact hsz (some z) _ hsorted e he c hc
          · exact hsz (some z) _ hsorted e he c hc

theorem place_one_placed (containers : List Container) (item : Item) (st : PlaceState) :
    (place_one containers item st).placed_items = st.placed_items ∨
    ∃ (cs : List Container) (counts : String → ℤ) (sx : List Item) (it2 : Item),
      (try_place_core item cs counts st.placed_items sx).placed_item = some it2 ∧
      (place_one containers item st).placed_items = st.placed_items ++ [it2] ∧
      (∀ c ∈ cs, c ∈ containers ∨ ∃ e ∈ st.zone_map, c ∈ e.2) := by
  unfold place_one
  simp only []
  rcases hpz : item.preferred_zone with _ | z
  · simp only [hpz]
    rcases hr : (try_place_in_containers item containers st.counts st.placed_items
        st.store_items false).2.placed_item with _ | it2
    · simp only [hr]
      left
      trivial
    · right
      refine ⟨sortOrd (fill_lt st.counts) containers, st.counts, st.store_items, it2,
        hr, ?_, ?_⟩
      · simp only [hr]
      · intro c hc
        exact Or.inl (mem_sortOrd.mp hc)
  · by_cases hse : str_isEmpty z = true
    · simp only [hpz, hse, if_true]
      rcases hr : (try_place_in_containers item containers st.counts st.placed_items
          st.store_items false).2.placed_item with _ | it2
      · simp only [hr]
        left
        trivial
      · right
        refine ⟨sortOrd (fill_lt st.counts) containers, st.counts, st.store_items, it2,
          hr, ?_, ?_⟩
        · simp only [hr]
        · intro c hc
          exact Or.inl (mem_sortOrd.mp hc)
    · rcases hf : st.zone_map.find? (fun e => e.1 == some z) with _ | e0
      · simp only [hpz, hse, Bool.false_eq_true, if_false, hf, Option.isSome_none]
        rcases hr : (try_place_in_containers item containers st.counts st.placed_items
            st.store_items false).2.placed_item with _ | it2
        · simp only [hr]
          left
          trivial
        · right
          refine ⟨sortOrd (fill_lt st.counts) containers, st.counts, st.store_items, it2,
            hr, ?_, ?_⟩
          · simp only [hr]
          · intro c hc
            exact Or.inl (mem_sortOrd.mp hc)
      · simp only [hpz, hse, Bool.false_eq_true, if_false, hf, Option.isSome_some,
          if_true, Option.map_some', Option.getD_some]
        rcases hr1 : (try_place_in_containers item e0.2 st.counts st.placed_items
            st.store_items true).2.placed_item with _ | it2
        · simp only [hr1]
          rcases hr2 : (try_place_in_containers item containers
              (try_place_in_containers item e0.2 st.counts st.placed_items
                st.store_items true).2.counts
              st.placed_items
              (try_place_in_containers item e0.2 st.counts st.placed_items
                st.store_items true).2.store_items
              false).2.placed_item with _ | it2
          · simp only [hr2]
            left
            trivial
          · right
            refine ⟨sortOrd (fill_lt ((try_place_in_containers item e0.2 st.counts
                st.placed_items st.store_items true).2.counts)) containers,
              (try_place_in_containers item e0.2 st.counts st.placed_items
                st.store_items true).2.counts,
              (try_place_in_containers item e0.2 st.counts st.placed_items
                st.store_items true).2.store_items, it2, hr2, ?_, ?_⟩
            · simp only [hr2]
            · intro c hc
              exact Or.inl (mem_sortOrd.mp hc)
        · right
          refine ⟨sortOrd (fill_lt st.counts) e0.2, st.counts, st.store_items, it2,
            hr1, ?_, ?_⟩
          · simp only [hr1]
          · intro c hc
            exact Or.inr ⟨e0, List.mem_of_find?_eq_some hf, mem_sortOrd.mp hc⟩

theorem place_loop_seg (containers : List Container) :
    ∀ (items : List Item) (st : PlaceState),
      (∀ i ∈ st.placed_items, i.is_waste = false → ∀ cid, i.container_id = some cid →
        str_startsWith cid "WST" = false) →
      ∀ i ∈ (place_loop containers items st).placed_items,
        i.is_waste = false → ∀ cid, i.container_id = some cid →
          str_startsWith cid "WST" = false := by
  intro items
  induction items with
  | nil =>
    intro st hbase
    simpa [place_loop] using hbase
  | cons it rest ih =>
    intro st hbase
    simp only [place_loop]
    apply ih
    intro i hi hw cid hcid
    rcases place_one_placed containers it st with heq | ⟨cs, counts, sx, it2, hcore, heq, -⟩
    · rw [heq] at hi
      exact hbase i hi hw cid hcid
    · rw [heq] at hi
      rcases List.mem_append.mp hi with hi1 | hi2
      · exact hbase i hi1 hw cid hcid
      · have hii : i = it2 := by simpa using hi2
        rw [hii] at hw hcid
        obtain ⟨c, -, hcid2, hwaste, himp, -⟩ :=
          try_place_core_spec it cs counts st.placed_items sx it2 hcore
        have hcidc : cid = c.id := by
          rw [hcid2] at hcid
          exact (Option.some.injEq _ _ ▸ hcid).symm
        rcases hsw : str_startsWith cid "WST" with _ | _
        · rfl
        · rw [hcidc] at hsw
          have hiw := himp hsw
          rw [hwaste, hiw] at hw
          exact absurd hw (by simp)

/-- Every run of `place_items` either places nothing or delegates to
`place_loop` started from an empty `placed_items` list over the
zone-grouped containers. -/
theorem place_items_cases (store : Store) (items? : Option (List Item)) :
    (place_items store items?).placed_items = [] ∨
    ∃ (items1 : List Item) (sitems : List Item),
      (place_items store items?).placed_items =
        (place_loop store.containers (sortOrd item_order_lt items1)
          { zone_map := group_by_zone store.containers, counts := fun _ => 0,
            store_items := sitems, placed_items := [], unplaced_items := [] }).placed_items := by
  unfold place_items
  simp only []
  repeat' split
  all_goals first
    | (left; rfl)
    | (right; exact ⟨_, _, rfl⟩)

/-- C4 (amended): the planner's only waste/storage segregation is
one-directional and keyed on the container-id prefix: a *non-waste* item is
never placed into a container whose id starts with `WST`.  Nothing prevents
a waste item from being placed into a storage-kind container — see the
counterexample. -/
theorem placement_waste_segregation (store : Store) (items? : Option (List Item)) :
    ∀ i ∈ (place_items store items?).placed_items, i.is_waste = false →
      ∀ cid, i.container_id = some cid → str_startsWith cid "WST" = false := by
  intro i hi hw cid hcid
  rcases place_items_cases store items? with h | ⟨items1, sitems, h⟩
  · rw [h] at hi
    simp at hi
  · rw [h] at hi
    exact place_loop_seg store.containers _ _ (by simp) i hi hw cid hcid

/-- Witness for C4: a non-waste item placed by `place_items` lands in a
container whose id does not start with `WST`. -/
theorem placement_waste_segregation_witness :
    (cx_placed_plain ∈ (place_items cx_store_c5 (some [cx_plain_item])).placed_items) ∧
    (cx_placed_plain.is_waste = false) ∧
    (cx_placed_plain.container_id = some "CONT1") ∧
    (str_startsWith "CONT1" "WST" = false) :=
  ⟨by decide, by decide, by decide,
    placement_waste_segregation cx_store_c5 (some [cx_plain_item]) cx_placed_plain
      (by decide) (by decide) "CONT1" (by decide)⟩

theorem place_one_cap (containers : List Container)
    (hnd : (containers.map (fun c => c.id)).Nodup) (item : Item) (st : PlaceState)
    (hzm : ∀ e ∈ st.zone_map, ∀ c ∈ e.2, c ∈ containers)
    (hcap : ∀ c ∈ containers,
      ((st.placed_items.filter (fun i => i.container_id == some c.id)).length : ℤ)
        ≤ max 0 c.capacity) :
    (∀ e ∈ (place_one containers item st).zone_map, ∀ c ∈ e.2, c ∈ containers) ∧
    (∀ c ∈ containers,
      (((place_one containers item st).placed_items.filter
        (fun i => i.container_id == some c.id)).length : ℤ) ≤ max 0 c.capacity) := by
  constructor
  · intro e he c hc
    obtain ⟨e', he', hc'⟩ := place_one_zone_map containers item st e he c hc
    exact hzm e' he' c hc'
  · intro c hc
    rcases place_one_placed containers item st with heq | ⟨cs, counts, sx, it2, hcore, heq, hcs⟩
    · rw [heq]
      exact hcap c hc
    · rw [heq]
      obtain ⟨c', hc', hcid, -, -, hlt⟩ :=
        try_place_core_spec item cs counts st.placed_items sx it2 hcore
      have hc'mem : c' ∈ containers := by
        rcases hcs c' hc' with h1 | ⟨e, he, h2⟩
        · exact h1
        · exact hzm e he c' h2
      rw [List.filter_append, List.length_append]
      rcases hmatch : (it2.container_id == some c.id) with _ | _
      · have : ([it2].filter (fun i => i.container_id == some c.id)).length = 0 := by
          simp [List.filter_cons, hmatch]
        rw [this]
        simpa using hcap c hc
      · have hone : ([it2].filter (fun i => i.container_id == some c.id)).length = 1 := by
          simp [List.filter_cons, hmatch]
        rw [hone]
        have hcideq : it2.container_id = some c.id := by simpa using hmatch
        have hid : c.id = c'.id := by
          rw [hcideq] at hcid
          simpa using hcid
        have hcc : c = c' :=
          List.inj_on_of_nodup_map hnd hc hc'mem hid
        rw [← hcc] at hlt
        push_cast
        have hcap0 : (0 : ℤ) ≤ c.capacity := by
          have h0 : (0 : ℤ) ≤
              ((st.placed_items.filter (fun i => i.container_id == some c.id)).length : ℤ) := by
            positivity
          omega
        rw [max_eq_right hcap0]
        omega

theorem place_loop_cap (containers : List Container)
    (hnd : (containers.map (fun c => c.id)).Nodup) :
    ∀ (items : List Item) (st : PlaceState),
      (∀ e ∈ st.zone_map, ∀ c ∈ e.2, c ∈ containers) →
      (∀ c ∈ containers,
        ((st.placed_items.filter (fun i => i.container_id == some c.id)).length : ℤ)
          ≤ max 0 c.capacity) →
      ∀ c ∈ containers,
        (((place_loop containers items st).placed_items.filter
          (fun i => i.container_id == some c.id)).length : ℤ) ≤ max 0 c.capacity := by
  intro items
  induction items with
  | nil =>
    intro st hzm hcap
    simpa [place_loop] using hcap
  | cons it rest ih =>
    intro st hzm hcap
    simp only [place_loop]
    obtain ⟨hzm', hcap'⟩ := place_one_cap containers hnd it st hzm hcap
    exact ih _ hzm' hcap'

/-- C5 (amended): the planner has no global capacity governor (no
`⌊total_capacity * f⌋` cap exists in the code — see the counterexample);
what the code does enforce is a per-container bound: when the snapshot's
container ids are distinct, every container ends a run holding at most
`max 0 capacity` placed items, because `try_place_core` skips a container
whose current placed count has reached its capacity. -/
theorem placement_capacity_bound (store : Store) (items? : Option (List Item))
    (hnd : (store.containers.map (fun c => c.id)).Nodup) :
    ∀ c ∈ store.containers,
      (((place_items store items?).placed_items.filter
        (fun i => i.container_id == some c.id)).length : ℤ) ≤ max 0 c.capacity := by
  intro c hc
  rcases place_items_cases store items? with h | ⟨items1, sitems, h⟩
  · rw [h]
    simp
  · rw [h]
    exact place_loop_cap store.containers hnd _ _
      (fun e he => group_by_zone_subset store.containers e he)
      (by intro c hc; simp) c hc

/-- Witness for C5: the single capacity-1 container holds exactly one placed
item after a run, within the `max 0 capacity` bound. -/
theorem placement_capacity_bound_witness :
    ((cx_store_c5.containers.map (fun c => c.id)).Nodup) ∧
    (cx_storage_container ∈ cx_store_c5.containers) ∧
    ((((place_items cx_store_c5 (some [cx_plain_item])).placed_items.filter
      (fun i => i.container_id == some cx_storage_container.id)).length : ℤ)
        ≤ max 0 cx_storage_container.capacity) :=
  ⟨by decide, by decide,
    placement_capacity_bound cx_store_c5 (some [cx_plain_item]) (by decide)
      cx_storage_container (by decide)⟩

end CargoX
